import Mathlib

/-!
Verification development for the tour-search agent orchestration core.

The definitions below are shallow embeddings of the Python source:

* `groupIntoBlocks`, `trimHistory` embed `OpenAIHandler._group_into_blocks`
  and `OpenAIHandler._trim_history` (src/backend/openai_handler.py).
* The date-corrector chain (`fixP2`, `fix1B`, `fixP6`, `fixP4`) embeds the
  search-argument date repairs of `_dispatch_function`
  (src/backend/yandex_handler.py).
* `nightsPenalty`, `scoredToursSorted`, `pickBestTour`, `resultsStep` embed
  the ranking engine (`_nights_penalty`, `_pick_best_tour`, the
  `get_search_results` branch).
* `pollStatus` embeds the `get_search_status` polling loop.
* `checkCascadeSlots` and `searchToursStep` embed `_check_cascade_slots`
  and the `search_tours` branch of `_dispatch_function`.
* `resolveTouridFromText`, `getTourDetailsStep` embed the positional
  tour-id resolution.

Text analysis in the source is regular-expression matching over the Russian
conversation text; those detectors are pure deterministic functions of the
history, so they enter the embedding as boolean/optional oracle inputs
(one per regex family), fixed across repeated applications to the same
history.  Machine arithmetic uses `Int`/`Nat`/`ℚ` (Python ints are
unbounded; the float arithmetic in `_nights_penalty` is exact in binary
at the used scale, so `ℚ` is faithful for comparisons).
-/

namespace MGP

/-! ## Conversation store: messages, atomic blocks, trimming -/

inductive Role
  | user
  | assistant
  | tool
  | system
deriving DecidableEq, Repr

/-- One chat message. `toolCalls` is the list of invocation ids carried by an
assistant turn (`[]` when the `tool_calls` key is absent/empty, which is what
Python truthiness tests); `toolCallId` is the id a tool turn answers. -/
structure Msg where
  role : Role
  toolCalls : List String := []
  toolCallId : Option String := none
deriving DecidableEq, Repr

/-- `msg.get("role") == "assistant" and msg.get("tool_calls")`. -/
def hasCalls (m : Msg) : Bool :=
  m.role == Role.assistant && !m.toolCalls.isEmpty

def isTool (m : Msg) : Bool :=
  m.role == Role.tool

/-- Embeds `OpenAIHandler._group_into_blocks`: a tool-call assistant message
absorbs the run of tool messages after it; any other message is a singleton
block. -/
def groupIntoBlocks : List Msg → List (List Msg)
  | [] => []
  | m :: rest =>
    if hasCalls m then
      (m :: rest.takeWhile isTool) :: groupIntoBlocks (rest.dropWhile isTool)
    else
      [m] :: groupIntoBlocks rest
termination_by l => l.length
decreasing_by
  · simp only [List.length_cons]
    exact Nat.lt_succ_of_le (List.dropWhile_sublist _).length_le
  · simp

/-- Total message count of a block list (the `total` accumulator). -/
def totalLen (bs : List (List Msg)) : Nat :=
  (bs.map List.length).sum

/-- Embeds the `while total > self._max_history_len and len(blocks) > 3`
loop of `OpenAIHandler._trim_history`: repeatedly drop the block at index 1. -/
def trimBlocks (maxLen : Nat) : List (List Msg) → List (List Msg)
  | b0 :: b1 :: b2 :: b3 :: rest =>
    if maxLen < totalLen (b0 :: b1 :: b2 :: b3 :: rest) then
      trimBlocks maxLen (b0 :: b2 :: b3 :: rest)
    else
      b0 :: b1 :: b2 :: b3 :: rest
  | bs => bs
termination_by bs => bs.length
decreasing_by simp

/-- Embeds `OpenAIHandler._trim_history`. -/
def trimHistory (maxLen : Nat) (msgs : List Msg) : List Msg :=
  if msgs.length ≤ maxLen then msgs
  else (trimBlocks maxLen (groupIntoBlocks msgs)).flatten

/-- The tool-result turns `tools` answer exactly the invocation ids `calls`:
one tool turn per id (as multisets). -/
def idsMatch (calls : List String) (tools : List Msg) : Bool :=
  decide (Multiset.ofList (tools.map Msg.toolCallId)
          = Multiset.ofList (calls.map (fun i => some i)))

/-- The atomicity invariant on a message list: no orphaned tool turn, and
every assistant turn with tool invocations is immediately followed by exactly
the matching set of tool-result turns. -/
def blocksWF : List Msg → Bool
  | [] => true
  | m :: rest =>
    if isTool m then false
    else if hasCalls m then
      idsMatch m.toolCalls (rest.takeWhile isTool)
        && blocksWF (rest.dropWhile isTool)
    else blocksWF rest
termination_by l => l.length
decreasing_by
  · simp only [List.length_cons]
    exact Nat.lt_succ_of_le (List.dropWhile_sublist _).length_le
  · simp

/-- A well-formed atomic block: either a lone non-tool message without tool
invocations, or an assistant tool-call turn followed by exactly its matching
tool-result turns. -/
def goodBlock : List Msg → Bool
  | [] => false
  | m :: rest =>
    if isTool m then false
    else if hasCalls m then
      rest.all isTool && idsMatch m.toolCalls rest
    else rest.isEmpty

/-! ## Calendar arithmetic (Python `datetime` semantics for valid dates) -/

def isLeap (y : Int) : Bool :=
  (y % 4 == 0 && y % 100 != 0) || y % 400 == 0

/-- Number of days in month `m` of year `y` (Gregorian). -/
def monthLen (y m : Int) : Int :=
  if m == 2 then (if isLeap y then 29 else 28)
  else if m == 4 || m == 6 || m == 9 || m == 11 then 30
  else 31

/-- `strptime("%d.%m.%Y")` succeeds exactly on calendar-valid day/month. -/
def validDMY (d m y : Int) : Bool :=
  1 ≤ m && m ≤ 12 && 1 ≤ d && d ≤ monthLen y m

/-- Serial day number of a civil date (days-from-civil algorithm); used to
embed `datetime` subtraction, comparison and `timedelta` addition. -/
def daysFromCivil (y m d : Int) : Int :=
  let ys := if m ≤ 2 then y - 1 else y
  let era := (if 0 ≤ ys then ys else ys - 399).fdiv 400
  let yoe := ys - era * 400
  let mp := if 2 < m then m - 3 else m + 9
  let doy := (153 * mp + 2).fdiv 5 + d - 1
  let doe := yoe * 365 + yoe.fdiv 4 - yoe.fdiv 100 + doy
  era * 146097 + doe - 719468

/-- Inverse of `daysFromCivil`: serial day number back to `(y, m, d)`. -/
def civilFromDays (z0 : Int) : Int × Int × Int :=
  let z := z0 + 719468
  let era := z.fdiv 146097
  let doe := z - era * 146097
  let yoe := (doe - doe.fdiv 1460 + doe.fdiv 36524 - doe.fdiv 146096).fdiv 365
  let y := yoe + era * 400
  let doy := doe - (365 * yoe + yoe.fdiv 4 - yoe.fdiv 100)
  let mp := (5 * doy + 2).fdiv 153
  let d := doy - (153 * mp + 2).fdiv 5 + 1
  let m := if mp < 10 then mp + 3 else mp - 9
  (if m ≤ 2 then y + 1 else y, m, d)

/-! ## Date argument values and the date-corrector chain

A search argument date travels as a string.  The shapes relevant to the
correctors are: absent/None, a `D.M` string without year (matched by the
Fix P2 pattern), a `D.M.Y` string, and anything else (never parseable).
`dmy` values can be calendar-invalid (for example the string `29.02.2027`
written by Fix P2 without re-validation); `parseFull` checks validity the
way `strptime` does. -/

inductive DVal
  | noneD
  | dm (d m : Int)
  | dmy (d m y : Int)
  | junk
deriving DecidableEq, Repr

/-- `strptime(value, "%d.%m.%Y")` as a serial day number. -/
def parseFull : DVal → Option Int
  | DVal.dmy d m y => if validDMY d m y then some (daysFromCivil y m d) else none
  | _ => none

/-- `value` truthiness for a date argument (absent/empty is falsy). -/
def dvalPresent : DVal → Bool
  | DVal.noneD => false
  | _ => true

/-- The current wall-clock instant: the civil date of `datetime.now()` plus
whether its time-of-day is strictly past midnight (Fix P2 compares a parsed
midnight datetime against `now` with its time component). -/
structure Now where
  y : Int
  m : Int
  d : Int
  frac : Bool
deriving DecidableEq, Repr

def nowDays (n : Now) : Int := daysFromCivil n.y n.m n.d

/-- Fix P2: complete a `D.M` date with the current year, rolling to the next
year if the completed date is in the past.  A completion that does not parse
(`ValueError`) leaves the argument unchanged; the rolled year is written
without re-validation, exactly as the source does. -/
def fixP2 (now : Now) : DVal → DVal
  | DVal.dm d m =>
    if validDMY d m now.y then
      if daysFromCivil now.y m d < nowDays now
          || (daysFromCivil now.y m d == nowDays now && now.frac) then
        DVal.dmy d m (now.y + 1)
      else
        DVal.dmy d m now.y
    else DVal.dm d m
  | v => v

def fixP2both (now : Now) (p : DVal × DVal) : DVal × DVal :=
  (fixP2 now p.1, fixP2 now p.2)

/-- Python truthiness of an optional int argument. -/
def truthy : Option Int → Bool
  | some v => v != 0
  | none => false

/-- The Fix 1B clamp decision on `delta = dateto - datefrom` days, given
whether the user text contains an explicit `с X по Y` date range and the
nights bounds of the call. -/
def clamp1B (explicitRange : Bool) (nf nt : Option Int) (delta : Int) : Bool :=
  if nf == none && nt == none then false
  else if explicitRange then
    let nfv := if truthy nf then nf.getD 7 else 7
    2 < delta && (delta - nfv).natAbs ≤ 1
  else
    let eff := if truthy nt then nt.getD 7
               else if truthy nf then nf.getD 7 else 7
    4 ≤ delta && (delta - eff).natAbs ≤ 2

/-- Fix 1B: default a missing end date to the start date, and clamp an end
date that looks like a tour-end date (rather than a last departure date)
back to the start date.  A parse failure of either date aborts the whole
`try` block with no changes. -/
def fix1B (explicitRange : Bool) (nf nt : Option Int) (p : DVal × DVal) :
    DVal × DVal :=
  match parseFull p.1 with
  | none => p
  | some dfD =>
    match p.2, parseFull p.2 with
    | DVal.noneD, _ => (p.1, p.1)
    | _, none => p
    | _, some dtoD =>
      if clamp1B explicitRange nf nt (dtoD - dfD) then (p.1, p.1) else p

/-- Fix P6: a start date in the past is moved to tomorrow; an end date
earlier than that is moved to tomorrow plus two days.  Runs inside the same
`try` block as Fix 1B, so it only acts when both dates parse. -/
def fixP6 (now : Now) (p : DVal × DVal) : DVal × DVal :=
  match parseFull p.1, parseFull p.2 with
  | some dfD, some dtoD =>
    if dfD < nowDays now then
      let nf1 := civilFromDays (nowDays now + 1)
      let newFrom := DVal.dmy nf1.2.2 nf1.2.1 nf1.1
      if dtoD < nowDays now + 1 then
        let nt3 := civilFromDays (nowDays now + 3)
        (newFrom, DVal.dmy nt3.2.2 nt3.2.1 nt3.1)
      else (newFrom, p.2)
    else p
  | _, _ => p

/-- The part-of-month phrasings recognised by the Fix P4 safety net. -/
inductive MPart
  | nachalo
  | seredina
  | konets
  | pervPolovina
  | vtorPolovina
deriving DecidableEq, Repr

/-- The `year` pick of the Fix P4 block: the `datefrom` year when its month
is at most the detected month, else the next year. -/
def p4Year (m0 y0 m : Int) : Int :=
  if m0 == m then y0 else if m0 < m then y0 else y0 + 1

/-- Start day of the corrected span per part of month. -/
def p4StartDay : MPart → Int
  | MPart.nachalo => 1
  | MPart.seredina => 10
  | MPart.konets => 20
  | MPart.pervPolovina => 1
  | MPart.vtorPolovina => 15

/-- End day of the corrected span per part of month (the month's last day
for «конец», the literal day 28 for the second half). -/
def p4EndDay (year m : Int) : MPart → Int
  | MPart.nachalo => 4
  | MPart.seredina => 20
  | MPart.konets => monthLen year m
  | MPart.pervPolovina => 14
  | MPart.vtorPolovina => 28

/-- The per-part tolerance band on the proposed span within which the Fix
P4 safety net does not fire (`span != 3` / `8 <= span <= 12` / …). -/
def p4InBand (span : Int) : MPart → Bool
  | MPart.nachalo => span == 3
  | MPart.seredina => 8 ≤ span && span ≤ 12
  | MPart.konets => 8 ≤ span && span ≤ 14
  | MPart.pervPolovina => 11 ≤ span && span ≤ 15
  | MPart.vtorPolovina => 11 ≤ span && span ≤ 15

/-- Fix P4: force-correct the date span for "beginning/middle/end of month"
phrasing.  `monthPart` is the outcome of the month-part regex over the
recent user text (`none` when it does not match); the month number comes
from the `_MONTHS_MAP` prefix table (with the leap-February override).
Corrections fire only when the span lies outside the per-part tolerance
band, and the second-half target ends on day 28 regardless of the month
length, exactly as the source. -/
def fixP4 (monthPart : Option (MPart × Int)) (p : DVal × DVal) : DVal × DVal :=
  if !dvalPresent p.1 || !dvalPresent p.2 then p
  else
    match monthPart with
    | none => p
    | some (part, m) =>
      match p.1, p.2 with
      | DVal.dmy d0 m0 y0, DVal.dmy d1 m1 y1 =>
        if validDMY d0 m0 y0 && validDMY d1 m1 y1 then
          if p4InBand (daysFromCivil y1 m1 d1 - daysFromCivil y0 m0 d0) part then
            p
          else
            (DVal.dmy (p4StartDay part) m (p4Year m0 y0 m),
             DVal.dmy (p4EndDay (p4Year m0 y0 m) m part) m (p4Year m0 y0 m))
        else p
      | _, _ => p

/-- The chain of date correctors applied by the `search_tours` branch, in
source order: Fix P2 (year completion), Fix 1B (end-date defaulting and
clamping), Fix P6 (past-date shifting), Fix P4 (part-of-month span
correction). -/
def dateChain (now : Now) (explicitRange : Bool) (nf nt : Option Int)
    (monthPart : Option (MPart × Int)) (p : DVal × DVal) : DVal × DVal :=
  fixP4 monthPart (fixP6 now (fix1B explicitRange nf nt (fixP2both now p)))

/-! ## Stable sort by key (Python `list.sort(key=...)` semantics)

Python sorting is stable: elements with equal keys keep their original
order.  `sortByKey` inserts each element, in original order, after all
already-placed elements whose key is not strictly greater. -/

def insSorted {α κ : Type} [LinearOrder κ] (key : α → κ) :
    List α → α → List α
  | [], x => [x]
  | y :: ys, x => if key x < key y then x :: y :: ys else y :: insSorted key ys x

def sortByKey {α κ : Type} [LinearOrder κ] (key : α → κ) (l : List α) :
    List α :=
  l.foldl (insSorted key) []

/-! ## Ranking engine -/

def safeIntD (o : Option Int) (d : Int) : Int := o.getD d

/-- One tour inside a hotel of the raw search results (only the fields the
ranking/selection code reads). -/
structure TourIn where
  tourid : Option String := none
  price : Option Int := none
  flydate : DVal := DVal.noneD
  nights : Option Int := none
deriving DecidableEq, Repr

/-- Embeds `_nights_penalty`: penalty for deviating from the requested
nights range (inside the range the upper bound is preferred; outside, the
distance to the range counts double). -/
def nightsPenalty (nights : Int) (nf nt : Option Int) : ℚ :=
  match nf, nt with
  | none, none => 0
  | _, _ =>
    let lo := nf.getD (nt.getD 0)
    let hi := nt.getD (nf.getD 0)
    if lo ≤ nights ∧ nights ≤ hi then ((hi - nights : Int) : ℚ) * (1 / 2)
    else ((min (nights - lo).natAbs (nights - hi).natAbs : ℕ) : ℚ) * 2

/-- The nights tier of `_pick_best_tour` (note the Python truthiness of the
`nightsfrom and nightsto` guard: a zero bound disables the tiering). -/
def tierOf (nf nt : Option Int) (nights : Int) : Int :=
  if truthy nf && truthy nt then
    if nf.getD 0 ≤ nights ∧ nights ≤ nt.getD 0 then nt.getD 0 - nights
    else 100 + (min (nights - nf.getD 0).natAbs (nights - nt.getD 0).natAbs : ℕ)
  else 0

/-- The date-distance component of `_pick_best_tour`: `0` when the ideal
start date is absent or unparseable, `99` when the tour date does not
parse. -/
def dateDiffOf (idealD : Option Int) (t : TourIn) : Int :=
  match idealD with
  | none => 0
  | some iD =>
    match parseFull t.flydate with
    | some fD => ((fD - iD).natAbs : ℕ)
    | none => 99

/-- The scored tour list of `_pick_best_tour`, sorted by
`(nights_tier, date_diff, price)` with Python stable sort. -/
def scoredToursSorted (idealDatefrom : DVal) (nf nt : Option Int)
    (tours : List TourIn) : List ((Int × Int × Int) × TourIn) :=
  let scored := tours.map fun t =>
    ((tierOf nf nt (safeIntD t.nights 0),
      dateDiffOf (parseFull idealDatefrom) t,
      safeIntD t.price 999999999), t)
  sortByKey (fun q => toLex (q.1.1, toLex (q.1.2.1, q.1.2.2))) scored

/-- Embeds `_pick_best_tour`. -/
def pickBestTour (tours : List TourIn) (idealDatefrom : DVal)
    (nf nt : Option Int) : Option TourIn :=
  match tours with
  | [] => none
  | t0 :: _ =>
    if !dvalPresent idealDatefrom && nf == none && nt == none then some t0
    else (scoredToursSorted idealDatefrom nf nt tours).head?.map (fun q => q.2)

/-- One hotel of the raw search results. -/
structure HotelIn where
  hotelcode : Option Int := none
  hotelname : Option String := none
  price : Option Int := none
  tours : List TourIn := []
deriving DecidableEq, Repr

/-- A simplified result entry: the hotel plus its selected best tour
(`none` mirrors the falsy `{}` returned by `_pick_best_tour` on an empty
tour list). -/
structure HEntry where
  hotel : HotelIn
  best : Option TourIn
deriving DecidableEq, Repr

/-- The per-hotel relevance score of the `get_search_results` branch:
nights penalty weighted 15, plus the date distance (99 on parse failure). -/
def relScore (idealDatefrom : DVal) (nf nt : Option Int)
    (best : Option TourIn) : ℚ :=
  let base : ℚ := match best with
    | some t => nightsPenalty (safeIntD t.nights 0) nf nt * 15
    | none => 0
  let dpart : ℚ := match best with
    | some t =>
      if dvalPresent idealDatefrom then
        match parseFull idealDatefrom, parseFull t.flydate with
        | some iD, some fD => ((fD - iD).natAbs : ℕ)
        | _, _ => 99
      else 0
    | none => 0
  base + dpart

/-- The price component of a hotel's sort tuple
(`_safe_int(best_tour.get("price"), 999999999)`). -/
def entryPrice (e : HEntry) : Int :=
  match e.best with
  | some t => safeIntD t.price 999999999
  | none => 999999999

/-- Level 1 of the results step: pick the best tour of a hotel and score the
hotel `(relevance, price)`. -/
def scoreHotel (idealDatefrom : DVal) (nf nt : Option Int) (h : HotelIn) :
    (ℚ × Int) × HEntry :=
  let e : HEntry := { hotel := h, best := pickBestTour h.tours idealDatefrom nf nt }
  ((relScore idealDatefrom nf nt e.best, entryPrice e), e)

/-- The fields of `_map_hotel_to_card` that carry search data (the remaining
card fields are presentation strings/links copied verbatim). -/
structure Card where
  hotelName : String
  nights : Int
  price : Int
  tourid : String
  departureCity : String
deriving DecidableEq, Repr

def mapHotelToCard (e : HEntry) (departureCity : String) : Card :=
  { hotelName := e.hotel.hotelname.getD "Отель"
    nights := match e.best with
      | some t => safeIntD t.nights 7
      | none => 7
    price := match e.best with
      | some t => if truthy t.price then t.price.getD 0 else safeIntD e.hotel.price 0
      | none => safeIntD e.hotel.price 0
    tourid := match e.best with
      | some t => t.tourid.getD ""
      | none => ""
    departureCity := departureCity }

/-- The positional tour-id cache built from the shown entries (1-based
positions, entries with a falsy tour id skipped). -/
def buildTouridMap (es : List HEntry) : List (Nat × String) :=
  es.enum.filterMap fun pe =>
    match pe.2.best with
    | some t =>
      match t.tourid with
      | some s => if s ≠ "" then some (pe.1 + 1, s) else none
      | none => none
    | none => none

structure ResultsOut where
  simplified : List HEntry
  cards : List Card
  touridMap : List (Nat × String)
deriving DecidableEq, Repr

/-- Level 2 of the `get_search_results` branch: score every hotel, sort by
`(relevance, price)` when no budget was given **and** an ideal start date is
cached, otherwise by price alone; keep the first five; build the pending
result cards and the positional tour-id cache from them. -/
def resultsStep (idealDatefrom : DVal) (nf nt : Option Int) (hasBudget : Bool)
    (departureCity : String) (hotels : List HotelIn) : ResultsOut :=
  let scored := hotels.map (scoreHotel idealDatefrom nf nt)
  let sorted :=
    if !hasBudget && dvalPresent idealDatefrom then
      sortByKey (fun q => toLex (q.1.1, q.1.2)) scored
    else
      sortByKey (fun q => q.1.2) scored
  let simplified := (sorted.take 5).map (fun q => q.2)
  { simplified := simplified
    cards := simplified.map (fun e => mapHotelToCard e departureCity)
    touridMap := buildTouridMap simplified }

/-! ## Status polling (`get_search_status` branch) -/

inductive SState
  | finished
  | noSearchResults
  | searching
deriving DecidableEq, Repr

structure PollSt where
  state : SState := SState.searching
  hotelsfound : Int := 0
  toursfound : Int := 0
  progress : Int := 0
deriving DecidableEq, Repr

inductive PollHint
  | finishedOk
  | noSearchFound
  | earlyReady
  | timeoutWithHotels
  | timeoutNoHotels
deriving DecidableEq, Repr

/-- Outcome of the polling loop: either the `NoResultsError` raise, or a
returned status payload tagged with which `_hint` branch produced it. -/
inductive PollResult
  | noResultsRaised (hotels tours : Int)
  | payload (st : PollSt) (hint : PollHint)
deriving DecidableEq, Repr

/-- The partial-results early-return heuristic. -/
def earlyReadyCond (st : PollSt) (elapsed : Int) : Bool :=
  (3 ≤ st.hotelsfound && 40 ≤ st.progress)
    || (1 ≤ st.hotelsfound && 20 ≤ st.toursfound && 30 ≤ st.progress)
    || (1 ≤ st.hotelsfound && 12 ≤ elapsed)

/-- One poll iteration neither returns nor raises: the search is still
running and below every partial-results threshold. -/
def pollContinues (st : PollSt) (elapsed : Int) : Bool :=
  (st.state == SState.searching) && !earlyReadyCond st elapsed

/-- The polling loop body: `s i` is the status returned by the `i`-th call
to the inventory status endpoint; `prev` is `last_status`; the fuel counts
the remaining iterations of `while elapsed < 60` with a 3-second step. -/
def pollAux (s : Nat → PollSt) : Nat → PollSt → Nat → PollResult
  | _, prev, 0 =>
    PollResult.payload prev
      (if 0 < prev.hotelsfound then PollHint.timeoutWithHotels
       else PollHint.timeoutNoHotels)
  | i, _, fuel + 1 =>
    let st := s i
    match st.state with
    | SState.finished =>
      if st.hotelsfound == 0 || st.toursfound == 0 then
        PollResult.noResultsRaised st.hotelsfound st.toursfound
      else PollResult.payload st PollHint.finishedOk
    | SState.noSearchResults => PollResult.payload st PollHint.noSearchFound
    | SState.searching =>
      if earlyReadyCond st (3 * i) then PollResult.payload st PollHint.earlyReady
      else pollAux s (i + 1) st fuel

/-- Embeds the `get_search_status` polling loop (`max_wait = 60`,
`poll_interval = 3`, so at most 20 polls before the timeout branch). -/
def pollStatus (s : Nat → PollSt) : PollResult :=
  pollAux s 0 { state := SState.searching } 20

/-! ## Slot validator (`_check_cascade_slots`) and the `search_tours` branch

The slot detectors are regex families over the concatenated user text; each
family enters as one boolean oracle (constant for a fixed history). -/

/-- The `departure` argument as received from the model: absent, an int, or
an array of ints (the array is rejected before any numeric use). -/
inductive DepVal
  | noneV
  | intV (i : Int)
  | listV (l : List Int)
deriving DecidableEq, Repr

/-- `_safe_int(args.get("departure"))` on the non-array path. -/
def safeDep : DepVal → Int
  | DepVal.intV i => i
  | _ => 0

/-- The arguments of a `search_tours` call (`none`/`noneD` stands for an
absent key or a `None` value, which `args.get` does not distinguish). -/
structure SearchArgs where
  departure : DepVal := DepVal.noneV
  country : Option Int := none
  datefrom : DVal := DVal.noneD
  dateto : DVal := DVal.noneD
  nightsfrom : Option Int := none
  nightsto : Option Int := none
  adults : Option Int := none
  child : Option Int := none
  childage1 : Option Int := none
  childage2 : Option Int := none
  childage3 : Option Int := none
  stars : Option Int := none
  starsbetter : Option Int := none
  meal : Option Int := none
  mealbetter : Option Int := none
  regions : Option (List Int) := none
  subregions : Option Int := none
  hotels : Option String := none
  pricefrom : Option Int := none
  priceto : Option Int := none
deriving DecidableEq, Repr

/-- `self._last_search_params`: a field is `some v` when the key is stored.
`uCountry`/`uRegions`/`uHotels` are the `_country`/`_regions`/`_hotels`
entries (flattened the way `dict.get` flattens an absent key and a `None`
value); `hasMetaKeys` records that the `_country`/`_regions` keys exist, so
that `bool(dict)` is decided correctly. -/
structure ParamCache where
  departure : Option DepVal := none
  datefrom : Option DVal := none
  dateto : Option DVal := none
  nightsfrom : Option Int := none
  nightsto : Option Int := none
  adults : Option Int := none
  child : Option Int := none
  childage1 : Option Int := none
  childage2 : Option Int := none
  childage3 : Option Int := none
  stars : Option Int := none
  starsbetter : Option Int := none
  meal : Option Int := none
  mealbetter : Option Int := none
  country : Option Int := none
  regions : Option (List Int) := none
  hotels : Option String := none
  uCountry : Option Int := none
  uRegions : Option (List Int) := none
  uHotels : Option String := none
  hasMetaKeys : Bool := false
deriving DecidableEq, Repr

/-- `bool(self._last_search_params)`. -/
def cacheEmpty (c : ParamCache) : Bool := decide (c = {})

/-- Outcomes of the regex slot detectors over the conversation text
(`_check_cascade_slots`).  `qcAskedAnswered` is the final value of
`qc_asked` after the answered-after-question check. -/
structure CascadeFlags where
  hasDeparture : Bool := false
  hasSpecificDate : Bool := false
  hasBareMonth : Bool := false
  hasQualifierLoose : Bool := false
  hasNights : Bool := false
  hasTravelers : Bool := false
  hasAgeInText : Bool := false
  hasStars : Bool := false
  hasMeal : Bool := false
  hasBrand : Bool := false
  hasSkip : Bool := false
  qcAskedAnswered : Bool := false
deriving DecidableEq, Repr

/-- The `datefrom` argument starts with `DD.MM.YYYY` (the early-pass regex;
the corrector-written dates are `strftime`-padded, which this shape
models). -/
def matchesDDMMYYYY : DVal → Bool
  | DVal.dmy _ _ _ => true
  | _ => false

/-- The follow-up early pass of `_check_cascade_slots`: trust the model when
the arguments already carry every critical parameter. -/
def cascadeEarlyPass (a : SearchArgs) : Bool :=
  (match a.departure with | DepVal.intV i => 0 < i | _ => false)
    && (dvalPresent a.datefrom && matchesDDMMYYYY a.datefrom)
    && (match a.nightsfrom with | some n => n != 0 && 3 ≤ n | none => false)
    && (match a.adults with | some k => k != 0 && 0 < k | none => false)
    && ((match a.stars with | some s => s != 0 && 0 < s | none => false)
        || (match a.meal with | some mv => mv != 0 && 0 < mv | none => false))

/-- Embeds `_check_cascade_slots`: `(is_complete, missing)` with the missing
slots in the fixed cascade priority order. -/
def checkCascadeSlots (fl : CascadeFlags) (a : SearchArgs)
    (isFollowUp : Bool) : Bool × List String :=
  if isFollowUp && cascadeEarlyPass a then (true, [])
  else
    let hasDate := fl.hasSpecificDate || fl.hasBareMonth
    let m1 := if !fl.hasDeparture then ["город вылета"] else []
    let m2 := if fl.hasBareMonth && !fl.hasSpecificDate && !fl.hasQualifierLoose
              then ["промежуток в месяце (начало/середина/конец)"] else []
    let m3 := if !hasDate && !fl.hasNights then ["даты/месяц и длительность"]
              else if !hasDate then ["даты/месяц вылета"] else []
    let m4 := if !fl.hasTravelers then ["состав путешественников"] else []
    let hasChildage := truthy a.childage1 || truthy a.childage2 || truthy a.childage3
    let m5 := if 0 < a.child.getD 0 && !hasChildage && !fl.hasAgeInText
              then ["возраст ребёнка"] else []
    let qcPassed := (fl.hasStars && fl.hasMeal) || fl.hasSkip
                    || (fl.hasBrand && fl.hasMeal)
    let m6 := if qcPassed || fl.qcAskedAnswered then []
              else if fl.hasBrand && !fl.hasMeal && !fl.hasSkip then ["тип питания"]
              else if fl.hasStars && !fl.hasMeal then ["тип питания"]
              else if fl.hasMeal && !fl.hasStars then ["категорию отеля (звёздность)"]
              else ["категорию отеля и тип питания"]
    let missing := m1 ++ m2 ++ m3 ++ m4 ++ m5 ++ m6
    (missing.isEmpty, missing)

/-- Embeds the Fix P5 nights auto-correction.  Note that the consistency
check compares the *original* local `nf` (not the possibly-bumped argument)
against `nt`, exactly as the source does. -/
def fixP5Nights (nf nt : Option Int) : Option Int × Option Int :=
  let nf1 : Option Int := match nf with
    | some v => if v < 3 then some 3 else some v
    | none => none
  match nf, nt with
  | some v, some w => if w < v then (some w, nt) else (nf1, nt)
  | _, _ => (nf1, nt)

/-- Outcome of the resort auto-resolution block, as a function of the user
text and the dictionary API responses: either a resolved `(country,
regions)` pair written into the arguments, or the corrective error. -/
inductive ResortRes
  | resolvedR (country : Int) (regionIds : List Int)
  | unresolvedR (resortName : String)
deriving DecidableEq, Repr

/-- The text-analysis oracles of the `search_tours` branch: each field is
the outcome of one regex family over the (fixed) conversation text, plus
the dictionary-API-dependent resort resolution. -/
structure TextFlags where
  cascade : CascadeFlags := {}
  explicitRange : Bool := false
  monthPart : Option (MPart × Int) := none
  funcLeakFrom : Bool := false
  funcLeakTo : Bool := false
  textDepMatch : Option Int := none
  depChangeVerified : Bool := false
  resort : Option ResortRes := none
  skipQCStrip : Bool := false
  wantsBetterStars : Bool := false
  daysPhrase : Option Int := none
  aroundPrice : Bool := false
deriving DecidableEq, Repr

/-- The per-session handler state touched by the `search_tours` branch. -/
structure HState where
  metricsCascade : Nat := 0
  metricsSearches : Nat := 0
  metricsDatetoCorr : Nat := 0
  metricsResort : Nat := 0
  metricsPlaceholder : Nat := 0
  lastDepartureCity : String := "Москва"
  lastRequestid : Option String := none
  searchAwaiting : Bool := false
  touridMap : List (Nat × String) := []
  cache : ParamCache := {}
  userStatedBudget : Option Int := none
  idealDatefrom : DVal := DVal.noneD
  idealNf : Option Int := none
  idealNt : Option Int := none
  hasBudget : Bool := false
deriving DecidableEq, Repr

def departureCityName (c : Int) : Option String :=
  if c == 1 then some "Москва" else if c == 2 then some "Пермь"
  else if c == 3 then some "Екатеринбург" else if c == 4 then some "Уфа"
  else if c == 5 then some "Санкт-Петербург" else if c == 6 then some "Челябинск"
  else if c == 7 then some "Самара" else if c == 8 then some "Нижний Новгород"
  else if c == 9 then some "Новосибирск" else if c == 10 then some "Казань"
  else if c == 11 then some "Краснодар" else if c == 12 then some "Красноярск"
  else if c == 18 then some "Ростов-на-Дону" else if c == 56 then some "Сочи"
  else if c == 99 then some "Без перелёта" else none

def departureCityKnown (c : Int) : Bool := (departureCityName c).isSome

def orCache (c v : Option Int) : Option Int :=
  match c with
  | some x => some x
  | none => v

/-- The Fix C2 parameter-cache fallback (restore only absent/None keys). -/
def restoreFromCache (c : ParamCache) (a : SearchArgs) : SearchArgs :=
  { a with
    departure := if a.departure == DepVal.noneV then
        (match c.departure with | some d => d | none => a.departure)
      else a.departure
    datefrom := if a.datefrom == DVal.noneD then
        (match c.datefrom with | some d => d | none => a.datefrom)
      else a.datefrom
    dateto := if a.dateto == DVal.noneD then
        (match c.dateto with | some d => d | none => a.dateto)
      else a.dateto
    nightsfrom := (orCache a.nightsfrom c.nightsfrom)
    nightsto := (orCache a.nightsto c.nightsto)
    adults := (orCache a.adults c.adults)
    child := (orCache a.child c.child)
    childage1 := (orCache a.childage1 c.childage1)
    childage2 := (orCache a.childage2 c.childage2)
    childage3 := (orCache a.childage3 c.childage3)
    stars := (orCache a.stars c.stars)
    starsbetter := (orCache a.starsbetter c.starsbetter)
    meal := (orCache a.meal c.meal)
    mealbetter := (orCache a.mealbetter c.mealbetter) }

/-- The Fix F5 pre-save of a cascade-blocked call: store every non-None
argument whose key the cache does not hold yet. -/
def f5Save (a : SearchArgs) (c : ParamCache) : ParamCache :=
  { c with
    departure := match c.departure with
      | some d => some d
      | none => if a.departure ≠ DepVal.noneV then some a.departure else none
    datefrom := match c.datefrom with
      | some d => some d
      | none => if a.datefrom ≠ DVal.noneD then some a.datefrom else none
    dateto := match c.dateto with
      | some d => some d
      | none => if a.dateto ≠ DVal.noneD then some a.dateto else none
    nightsfrom := orCache c.nightsfrom a.nightsfrom
    nightsto := orCache c.nightsto a.nightsto
    adults := orCache c.adults a.adults
    child := orCache c.child a.child
    childage1 := orCache c.childage1 a.childage1
    childage2 := orCache c.childage2 a.childage2
    childage3 := orCache c.childage3 a.childage3
    stars := orCache c.stars a.stars
    starsbetter := orCache c.starsbetter a.starsbetter
    meal := orCache c.meal a.meal
    mealbetter := orCache c.mealbetter a.mealbetter
    country := orCache c.country a.country
    regions := match c.regions with
      | some r => some r
      | none => a.regions
    hotels := match c.hotels with
      | some h => some h
      | none => a.hotels }

/-- The parameter cache written after a successful search submission. -/
def postSubmitCache (a : SearchArgs) : ParamCache :=
  { departure := if a.departure ≠ DepVal.noneV then some a.departure else none
    datefrom := if a.datefrom ≠ DVal.noneD then some a.datefrom else none
    dateto := if a.dateto ≠ DVal.noneD then some a.dateto else none
    nightsfrom := a.nightsfrom
    nightsto := a.nightsto
    adults := a.adults
    child := a.child
    childage1 := a.childage1
    childage2 := a.childage2
    childage3 := a.childage3
    stars := a.stars
    starsbetter := a.starsbetter
    meal := a.meal
    mealbetter := a.mealbetter
    country := none
    regions := none
    hotels := none
    uCountry := a.country
    uRegions := a.regions
    uHotels := if (match a.hotels with | some s => s != "" | none => false) then a.hotels else none
    hasMetaKeys := true }

/-- Outcome of dispatching `search_tours`. -/
inductive SearchOutcome
  | depArrayError (cities : List Int)
  | resortError (resortName : String)
  | blocked (firstMissing : String)
  | createFailed
  | submitted (finalArgs : SearchArgs)
deriving DecidableEq, Repr

/-- `isinstance(dep_raw, list)`. -/
def depIsArray : DepVal → Bool
  | DepVal.listV _ => true
  | _ => false

def depArrayList : DepVal → List Int
  | DepVal.listV l => l
  | _ => []

/-- The departure validation / correction against the user text (the part
of the branch before the Fix H4 sanitisation).  Returns the corrected
arguments. -/
def depValidate (fl : TextFlags) (cache : ParamCache) (args : SearchArgs) :
    SearchArgs :=
  let depCode := safeDep args.departure
  let modelChanged := match cache.departure with
    | some (DepVal.intV p) => depCode ≠ p && departureCityKnown depCode
    | some _ => departureCityKnown depCode
    | none => false
  if modelChanged && fl.depChangeVerified then args
  else match fl.textDepMatch with
    | some correctId =>
      if depCode ≠ correctId then { args with departure := DepVal.intV correctId }
      else args
    | none => args

/-- The Fix P3 resort auto-resolution block, compressed to its observable
effect: `(corrective error, updated args, whether the block fired)`. -/
def resortStep (r : Option ResortRes) (a : SearchArgs) :
    Option String × SearchArgs × Bool :=
  if a.regions == none && a.subregions == none && a.hotels == none then
    match r with
    | none => (none, a, false)
    | some (ResortRes.resolvedR c rl) =>
      (none, { a with country := some c, regions := some rl }, true)
    | some (ResortRes.unresolvedR nm) => (some nm, a, true)
  else (none, a, false)

/-- The Fix C2 cache fallback plus the stale-regions drop on a country
change. -/
def cacheFallback (cache : ParamCache) (a : SearchArgs) : SearchArgs :=
  if cacheEmpty cache then a
  else
    let ar := restoreFromCache cache a
    if ar.country ≠ cache.uCountry then
      match ar.regions with
      | some rl => if some rl == cache.uRegions then { ar with regions := none }
                   else ar
      | none => ar
    else ar

/-- The argument fixes applied after the cascade gate passes: Fix P5
(nights), mealbetter default, skip-QC strip / starsbetter default, Fix C2
(days phrasing), Fix P7 (approximate price into a range). -/
def postCascadeFixes (fl : TextFlags) (a : SearchArgs) : SearchArgs :=
  let nn := fixP5Nights a.nightsfrom a.nightsto
  let a7 := { a with nightsfrom := nn.1, nightsto := nn.2 }
  let a8 := if a7.meal ≠ none && a7.mealbetter == none then
      { a7 with mealbetter := some 0 }
    else a7
  let a9 :=
    if fl.skipQCStrip && a8.stars ≠ none then
      { a8 with stars := none, starsbetter := none, meal := none,
                mealbetter := none }
    else if a8.stars ≠ none then
      (if a8.starsbetter == none then { a8 with starsbetter := some 0 }
       else if a8.starsbetter == some 1 && !fl.wantsBetterStars then
         { a8 with starsbetter := some 0 }
       else a8)
    else a8
  let a10 := match a9.nightsto, a9.nightsfrom, fl.daysPhrase with
    | some ntv, some nfv, some maxDays =>
      if ntv == maxDays && nfv == maxDays && 3 ≤ maxDays - 1 then
        { a9 with nightsfrom := some (maxDays - 1) }
      else a9
    | _, _, _ => a9
  if truthy a10.priceto && !truthy a10.pricefrom && fl.aroundPrice then
    let orig := a10.priceto.getD 0
    { a10 with priceto := some ((orig * 6).fdiv 5)
               pricefrom := some ((orig * 4).fdiv 5) }
  else a10

/-- The state written after a successful submission. -/
def postSubmitState (rid : String) (a : SearchArgs) (st : HState) : HState :=
  { st with
    lastRequestid := some rid
    touridMap := []
    userStatedBudget := if truthy a.priceto then some (a.priceto.getD 0)
                        else st.userStatedBudget
    cache := postSubmitCache a
    idealDatefrom := a.datefrom
    idealNf := some (safeIntD a.nightsfrom 0)
    idealNt := some (safeIntD a.nightsto 0)
    hasBudget := truthy a.pricefrom || truthy a.priceto
    searchAwaiting := true }

/-- The blocking cascade gate and, when it passes, the remaining argument
fixes and the submission to the Search Client.  On block: the structured
error carries the single first missing slot, the metrics counter is
incremented and the arguments are pre-saved into the parameter cache
(Fix F5). -/
def cascadeAndSubmit (fl : TextFlags) (apiRid : Option String)
    (origCache : ParamCache) (isFollowUp : Bool) (a : SearchArgs)
    (st2 : HState) : SearchOutcome × HState :=
  let cas := checkCascadeSlots fl.cascade a isFollowUp
  if !cas.1 then
    (SearchOutcome.blocked (cas.2.headD ""),
     { st2 with
        metricsCascade := st2.metricsCascade + 1
        cache := f5Save a origCache })
  else
    let args11 := postCascadeFixes fl a
    let st3 := { st2 with metricsSearches := st2.metricsSearches + 1 }
    match apiRid with
    | none => (SearchOutcome.createFailed, st3)
    | some rid => (SearchOutcome.submitted args11, postSubmitState rid args11 st3)

/-- Embeds the `search_tours` branch of `_dispatch_function` up to and
including the inventory submission.  `apiRid` is the request id returned by
the Search Client (`none` models the `request_id is None` failure); a
`submitted` outcome is the (only) point where a search request reaches the
Search Client. -/
def searchToursStep (fl : TextFlags) (now : Now) (apiRid : Option String)
    (args : SearchArgs) (st : HState) : SearchOutcome × HState :=
  if depIsArray args.departure then
    (SearchOutcome.depArrayError (depArrayList args.departure), st)
  else
    let args1 := depValidate fl st.cache args
    let city1 := (departureCityName (safeDep args1.departure)).getD
      st.lastDepartureCity
    -- Fix H4 hallucinated function text inside date arguments
    let args2 := { args1 with
      datefrom := if fl.funcLeakFrom then DVal.noneD else args1.datefrom
      dateto := if fl.funcLeakTo then DVal.noneD else args1.dateto }
    -- date correctors P2 / 1B / P6 / P4
    let p0 := fixP2both now (args2.datefrom, args2.dateto)
    let p1 := fix1B fl.explicitRange args2.nightsfrom args2.nightsto p0
    let clampCnt := if p0.2 ≠ DVal.noneD && p1 ≠ p0 then 1 else 0
    let pfin := fixP4 fl.monthPart (fixP6 now p1)
    let args3 := { args2 with datefrom := pfin.1, dateto := pfin.2 }
    -- regions must not repeat the country code
    let args4 := match args3.regions, args3.country with
      | some rl, some c =>
        if rl ≠ [] && c ≠ 0 && rl == [c] then { args3 with regions := none }
        else args3
      | _, _ => args3
    let st1 := { st with
      lastDepartureCity := city1
      metricsDatetoCorr := st.metricsDatetoCorr + clampCnt }
    let rs := resortStep fl.resort args4
    let st2 := if rs.2.2 then { st1 with metricsResort := st1.metricsResort + 1 }
               else st1
    match rs.1 with
    | some nm => (SearchOutcome.resortError nm, st2)
    | none =>
      cascadeAndSubmit fl apiRid st.cache (!cacheEmpty st.cache)
        (cacheFallback st.cache rs.2.1) st2

/-! ## Positional tour-id resolution (`_resolve_tourid_from_text`) -/

def listPre : List Char → List Char → Bool
  | [], _ => true
  | _ :: _, [] => false
  | a :: as, b :: bs => a == b && listPre as bs

def listHas (n : List Char) : List Char → Bool
  | [] => n.isEmpty
  | b :: bs => listPre n (b :: bs) || listHas n bs

/-- `needle in hay` on (already lower-cased) strings. -/
def strHas (hay needle : String) : Bool := listHas needle.data hay.data

/-- The `ordinal_map` of `_resolve_tourid_from_text` in dict insertion
order. -/
def ordinalMap : List (String × Nat) :=
  [("перв", 1), ("1", 1), ("втор", 2), ("2", 2), ("трет", 3),
   ("третьего", 3), ("3", 3), ("четверт", 4), ("четвёрт", 4), ("4", 4),
   ("пят", 5), ("5", 5)]

def resolveOrdinal (m : List (Nat × String)) (ph : String) :
    List (String × Nat) → Option String
  | [] => none
  | (kw, pos) :: rest =>
    if strHas ph kw then
      match m.lookup pos with
      | some tid => some tid
      | none => resolveOrdinal m ph rest
    else resolveOrdinal m ph rest

/-- Embeds `_resolve_tourid_from_text` (the placeholder is passed already
lower-cased, as `placeholder.lower()` does). -/
def resolveTouridFromText (m : List (Nat × String)) (ph : String) :
    Option String :=
  if m.isEmpty then none
  else
    match resolveOrdinal m ph ordinalMap with
    | some tid => some tid
    | none => m.lookup 1

/-- `tourid.replace(" ", "").isdigit()` (ASCII digits; the ids at play are
decimal strings). -/
def isNumericId (s : String) : Bool :=
  let t := s.data.filter (fun c => c ≠ ' ')
  !t.isEmpty && t.all Char.isDigit

inductive DetailOutcome
  | callApi (tourid : String)
  | invalidId
deriving DecidableEq, Repr

/-- Embeds the tourid validation of the `get_tour_details` branch: a
non-numeric id is resolved positionally against the cached tour index
before the inventory call; only an unresolvable id fails. -/
def getTourDetailsStep (st : HState) (tid : String) : DetailOutcome × HState :=
  if isNumericId tid then (DetailOutcome.callApi tid, st)
  else
    let st1 := { st with metricsPlaceholder := st.metricsPlaceholder + 1 }
    match resolveTouridFromText st.touridMap tid with
    | some r => (DetailOutcome.callApi r, st1)
    | none => (DetailOutcome.invalidId, st1)

/-! # Theorems -/

/-! ## Block grouping and trimming (C10, C2) -/

lemma groupIntoBlocks_nil : groupIntoBlocks [] = [] := by
  simp [groupIntoBlocks]

lemma groupIntoBlocks_cons_calls (m : Msg) (rest : List Msg)
    (h : hasCalls m = true) :
    groupIntoBlocks (m :: rest) =
      (m :: rest.takeWhile isTool) :: groupIntoBlocks (rest.dropWhile isTool) := by
  rw [groupIntoBlocks]
  simp [h]

lemma groupIntoBlocks_cons_single (m : Msg) (rest : List Msg)
    (h : hasCalls m = false) :
    groupIntoBlocks (m :: rest) = [m] :: groupIntoBlocks rest := by
  rw [groupIntoBlocks]
  simp [h]

/-- C10: grouping a history into atomic blocks and flattening the blocks
recovers exactly the original message list. -/
theorem groupIntoBlocks_flatten (msgs : List Msg) :
    (groupIntoBlocks msgs).flatten = msgs := by
  induction msgs using groupIntoBlocks.induct with
  | case1 => simp [groupIntoBlocks]
  | case2 m rest h ih =>
      rw [groupIntoBlocks_cons_calls m rest h]
      simp only [List.flatten_cons, ih, List.cons_append]
      rw [List.takeWhile_append_dropWhile]
  | case3 m rest h ih =>
      rw [groupIntoBlocks_cons_single m rest (Bool.eq_false_iff.mpr h)]
      simp [ih]

lemma hasCalls_isTool_false {m : Msg} (h : hasCalls m = true) :
    isTool m = false := by
  unfold hasCalls at h
  unfold isTool
  rcases Bool.and_eq_true_iff.mp h with ⟨h1, _⟩
  have : m.role = Role.assistant := by
    exact beq_iff_eq.mp h1
  simp [this]

lemma blocksWF_cons_tool {m : Msg} {rest : List Msg} (h : isTool m = true) :
    blocksWF (m :: rest) = false := by
  rw [blocksWF]
  simp [h]

lemma blocksWF_cons_calls {m : Msg} {rest : List Msg}
    (h1 : isTool m = false) (h2 : hasCalls m = true) :
    blocksWF (m :: rest) =
      (idsMatch m.toolCalls (rest.takeWhile isTool)
        && blocksWF (rest.dropWhile isTool)) := by
  rw [blocksWF]
  simp [h1, h2]

lemma blocksWF_cons_other {m : Msg} {rest : List Msg}
    (h1 : isTool m = false) (h2 : hasCalls m = false) :
    blocksWF (m :: rest) = blocksWF rest := by
  rw [blocksWF]
  simp [h1, h2]

/-- A well-formed history never starts with a tool turn, so its leading
`takeWhile isTool` run is empty. -/
lemma blocksWF_takeWhile_nil {l : List Msg} (h : blocksWF l = true) :
    l.takeWhile isTool = [] := by
  cases l with
  | nil => rfl
  | cons m rest =>
      cases hm : isTool m with
      | true => rw [blocksWF_cons_tool hm] at h; exact absurd h (by simp)
      | false => simp [List.takeWhile, hm]

lemma blocksWF_dropWhile_self {l : List Msg} (h : blocksWF l = true) :
    l.dropWhile isTool = l := by
  cases l with
  | nil => rfl
  | cons m rest =>
      cases hm : isTool m with
      | true => rw [blocksWF_cons_tool hm] at h; exact absurd h (by simp)
      | false => simp [List.dropWhile, hm]

lemma takeWhile_append_of_all {rest t : List Msg}
    (h : rest.all isTool = true) (ht : t.takeWhile isTool = []) :
    (rest ++ t).takeWhile isTool = rest := by
  induction rest with
  | nil => simpa using ht
  | cons a l ih =>
      have ha : isTool a = true := by
        have := List.all_eq_true.mp h a (by simp)
        simpa using this
      have hl : l.all isTool = true := by
        apply List.all_eq_true.mpr
        intro x hx
        exact List.all_eq_true.mp h x (by simp [hx])
      simp [List.takeWhile, ha, ih hl]

lemma dropWhile_append_of_all {rest t : List Msg}
    (h : rest.all isTool = true) (ht : t.dropWhile isTool = t) :
    (rest ++ t).dropWhile isTool = t := by
  induction rest with
  | nil => simpa using ht
  | cons a l ih =>
      have ha : isTool a = true := by
        have := List.all_eq_true.mp h a (by simp)
        simpa using this
      have hl : l.all isTool = true := by
        apply List.all_eq_true.mpr
        intro x hx
        exact List.all_eq_true.mp h x (by simp [hx])
      simp [List.dropWhile, ha, ih hl]

lemma goodBlock_cons (m : Msg) (rest : List Msg) :
    goodBlock (m :: rest) =
      (if isTool m then false
       else if hasCalls m then rest.all isTool && idsMatch m.toolCalls rest
       else rest.isEmpty) := rfl

lemma goodBlock_cons_tool {m : Msg} {rest : List Msg}
    (h : isTool m = true) : goodBlock (m :: rest) = false := by
  simp [goodBlock, h]

lemma goodBlock_cons_calls {m : Msg} {rest : List Msg}
    (h1 : isTool m = false) (h2 : hasCalls m = true) :
    goodBlock (m :: rest) = (rest.all isTool && idsMatch m.toolCalls rest) := by
  simp [goodBlock, h1, h2]

lemma goodBlock_cons_other {m : Msg} {rest : List Msg}
    (h1 : isTool m = false) (h2 : hasCalls m = false) :
    goodBlock (m :: rest) = rest.isEmpty := by
  simp [goodBlock, h1, h2]

/-- A good block prepended to a well-formed history keeps it well-formed. -/
lemma blocksWF_append_good {b t : List Msg}
    (hb : goodBlock b = true) (ht : blocksWF t = true) :
    blocksWF (b ++ t) = true := by
  cases b with
  | nil => exact absurd hb (by simp [goodBlock])
  | cons m rest =>
      cases hm : isTool m with
      | true =>
          rw [goodBlock_cons_tool hm] at hb
          exact absurd hb (by simp)
      | false =>
          cases hc : hasCalls m with
          | true =>
              rw [goodBlock_cons_calls hm hc, Bool.and_eq_true] at hb
              rcases hb with ⟨hall, hmatch⟩
              rw [List.cons_append, blocksWF_cons_calls hm hc]
              rw [takeWhile_append_of_all hall (blocksWF_takeWhile_nil ht),
                  dropWhile_append_of_all hall (blocksWF_dropWhile_self ht)]
              simp [hmatch, ht]
          | false =>
              rw [goodBlock_cons_other hm hc, List.isEmpty_iff] at hb
              subst hb
              rw [List.cons_append, List.nil_append,
                  blocksWF_cons_other hm hc]
              exact ht

lemma blocksWF_flatten_of_good {bs : List (List Msg)}
    (h : ∀ b ∈ bs, goodBlock b = true) : blocksWF bs.flatten = true := by
  induction bs with
  | nil => simp [blocksWF]
  | cons b rest ih =>
      rw [List.flatten_cons]
      exact blocksWF_append_good (h b (by simp))
        (ih (fun x hx => h x (by simp [hx])))

/-- Every block produced by grouping a well-formed history is good. -/
lemma good_of_blocksWF (msgs : List Msg) (h : blocksWF msgs = true) :
    ∀ b ∈ groupIntoBlocks msgs, goodBlock b = true := by
  induction msgs using groupIntoBlocks.induct with
  | case1 => simp [groupIntoBlocks]
  | case2 m rest hc ih =>
      rw [groupIntoBlocks_cons_calls m rest hc]
      have hm : isTool m = false := hasCalls_isTool_false hc
      rw [blocksWF_cons_calls hm hc, Bool.and_eq_true] at h
      intro b hb
      rcases List.mem_cons.mp hb with hb | hb
      · subst hb
        rw [goodBlock_cons_calls hm hc, Bool.and_eq_true]
        constructor
        · apply List.all_eq_true.mpr
          intro x hx
          simpa using List.mem_takeWhile_imp hx
        · exact h.1
      · exact ih h.2 b hb
  | case3 m rest hcn ih =>
      have hc : hasCalls m = false := Bool.eq_false_iff.mpr hcn
      rw [groupIntoBlocks_cons_single m rest hc]
      cases hm : isTool m with
      | true => rw [blocksWF_cons_tool hm] at h; exact absurd h (by simp)
      | false =>
          rw [blocksWF_cons_other hm hc] at h
          intro b hb
          rcases List.mem_cons.mp hb with hb | hb
          · subst hb
            rw [goodBlock_cons_other hm hc]
            simp
          · exact ih h b hb

lemma trimBlocks_sublist (maxLen : Nat) (bs : List (List Msg)) :
    (trimBlocks maxLen bs).Sublist bs := by
  induction bs using trimBlocks.induct maxLen with
  | case1 b0 b1 b2 b3 rest hlt ih =>
      rw [trimBlocks]
      simp only [hlt, if_true]
      exact ih.trans (List.Sublist.cons₂ _ (List.sublist_cons_self _ _))
  | case2 b0 b1 b2 b3 rest hge =>
      rw [trimBlocks]
      simp [hge]
  | case3 bs h1 =>
      rw [trimBlocks.eq_def]
      split
      · exact absurd rfl (h1 _ _ _ _ _)
      · exact List.Sublist.refl _

/-- C2: history trimming preserves the atomic-block invariant — after a
trim every assistant turn with tool invocations is still immediately
followed by exactly its matching tool-result turns, and the trimmed history
is a flattening of a subsequence of the original atomic blocks (whole
blocks only, none split). -/
theorem trimHistory_preserves_blocks (maxLen : Nat) (msgs : List Msg)
    (h : blocksWF msgs = true) :
    blocksWF (trimHistory maxLen msgs) = true ∧
      ∃ bs : List (List Msg), bs.Sublist (groupIntoBlocks msgs) ∧
        trimHistory maxLen msgs = bs.flatten := by
  unfold trimHistory
  split
  · exact ⟨h, ⟨groupIntoBlocks msgs, List.Sublist.refl _,
      (groupIntoBlocks_flatten msgs).symm⟩⟩
  · refine ⟨?_, ⟨trimBlocks maxLen (groupIntoBlocks msgs),
      trimBlocks_sublist _ _, rfl⟩⟩
    apply blocksWF_flatten_of_good
    intro b hb
    exact good_of_blocksWF msgs h b ((trimBlocks_sublist _ _).subset hb)

/-- Witness for C2 at a concrete history and budget. -/
theorem trimHistory_preserves_blocks_witness :
    blocksWF
      [⟨Role.system, [], none⟩, ⟨Role.user, [], none⟩,
       ⟨Role.assistant, ["a"], none⟩, ⟨Role.tool, [], some "a"⟩,
       ⟨Role.user, [], none⟩, ⟨Role.assistant, [], none⟩] = true ∧
    (blocksWF (trimHistory 4
      [⟨Role.system, [], none⟩, ⟨Role.user, [], none⟩,
       ⟨Role.assistant, ["a"], none⟩, ⟨Role.tool, [], some "a"⟩,
       ⟨Role.user, [], none⟩, ⟨Role.assistant, [], none⟩]) = true ∧
      ∃ bs : List (List Msg), bs.Sublist (groupIntoBlocks
        [⟨Role.system, [], none⟩, ⟨Role.user, [], none⟩,
         ⟨Role.assistant, ["a"], none⟩, ⟨Role.tool, [], some "a"⟩,
         ⟨Role.user, [], none⟩, ⟨Role.assistant, [], none⟩]) ∧
        trimHistory 4
          [⟨Role.system, [], none⟩, ⟨Role.user, [], none⟩,
           ⟨Role.assistant, ["a"], none⟩, ⟨Role.tool, [], some "a"⟩,
           ⟨Role.user, [], none⟩, ⟨Role.assistant, [], none⟩] = bs.flatten) :=
  ⟨by simp [blocksWF, isTool, hasCalls, idsMatch],
   trimHistory_preserves_blocks 4 _
     (by simp [blocksWF, isTool, hasCalls, idsMatch])⟩

/-! ## Ranking order (C3) -/

/-- C3: with candidate tours of 5, 7, 9 and 12 nights and a requested range
of 7 to 10 nights, the tour scoring of `_pick_best_tour` orders the 7- and
9-night offers ahead of the 5- and 12-night ones, and within the range
prefers the value closest to the upper bound (9 ranks ahead of 7); the
picked best tour is the 9-night one. -/
theorem ranking_orders_nights_range :
    (scoredToursSorted DVal.noneD (some 7) (some 10)
        [{ tourid := some "t5", price := some 1000,
           flydate := DVal.dmy 1 6 2026, nights := some 5 },
         { tourid := some "t7", price := some 1000,
           flydate := DVal.dmy 1 6 2026, nights := some 7 },
         { tourid := some "t9", price := some 1000,
           flydate := DVal.dmy 1 6 2026, nights := some 9 },
         { tourid := some "t12", price := some 1000,
           flydate := DVal.dmy 1 6 2026, nights := some 12 }]).map
      (fun q => safeIntD q.2.nights 0) = [9, 7, 5, 12] ∧
    pickBestTour
        [{ tourid := some "t5", price := some 1000,
           flydate := DVal.dmy 1 6 2026, nights := some 5 },
         { tourid := some "t7", price := some 1000,
           flydate := DVal.dmy 1 6 2026, nights := some 7 },
         { tourid := some "t9", price := some 1000,
           flydate := DVal.dmy 1 6 2026, nights := some 9 },
         { tourid := some "t12", price := some 1000,
           flydate := DVal.dmy 1 6 2026, nights := some 12 }]
        DVal.noneD (some 7) (some 10) =
      some { tourid := some "t9", price := some 1000,
             flydate := DVal.dmy 1 6 2026, nights := some 9 } := by
  constructor
  · decide
  · decide

/-! ## Nights auto-correction (C8) -/

/-- C8: the Fix P5 duration repair evaluated at the failing inputs.  With
`nightsfrom = 1, nightsto = 2` the minimum-duration bump produces `(3, 2)`
— the consistency check compares the stale original `nf = 1` against
`nt = 2` and does not fire, leaving a lower bound above the upper bound.
With `nightsfrom = 2, nightsto = 1` the consistency overwrite produces
`(1, 1)`, undoing the minimum-duration bump and leaving a lower bound
below three. -/
theorem fixP5Nights_failing_inputs :
    fixP5Nights (some 1) (some 2) = (some 3, some 2) ∧
    fixP5Nights (some 2) (some 1) = (some 1, some 1) := by
  constructor
  · rfl
  · rfl

/-! ## Status polling (C6) -/

lemma pollAux_step (s : Nat → PollSt) (i : Nat) (prev : PollSt) (fuel : Nat)
    (h : pollContinues (s i) (3 * i) = true) :
    pollAux s i prev (fuel + 1) = pollAux s (i + 1) (s i) fuel := by
  rw [pollContinues, Bool.and_eq_true] at h
  rcases h with ⟨hs, he⟩
  have hst : (s i).state = SState.searching := by
    exact beq_iff_eq.mp hs
  rw [pollAux]
  simp only [hst]
  have he2 : earlyReadyCond (s i) (3 * i) = false := by
    simpa using he
  simp [he2]

lemma pollAux_finished_zero (s : Nat → PollSt) :
    ∀ fuel i prev k, i + fuel = 20 → i ≤ k → k < 20 →
      (∀ j, i ≤ j → j < k → pollContinues (s j) (3 * j) = true) →
      (s k).state = SState.finished →
      ((s k).hotelsfound = 0 ∨ (s k).toursfound = 0) →
      pollAux s i prev fuel =
        PollResult.noResultsRaised (s k).hotelsfound (s k).toursfound := by
  intro fuel
  induction fuel with
  | zero =>
      intro i prev k h20 hik hk _ _ _
      omega
  | succ n ih =>
      intro i prev k h20 hik hk hcont hfin hzero
      rcases Nat.eq_or_lt_of_le hik with heq | hlt
      · subst heq
        rw [pollAux]
        simp only [hfin]
        have : ((s i).hotelsfound == 0 || (s i).toursfound == 0) = true := by
          rcases hzero with hz | hz <;> simp [hz]
        simp [this]
      · rw [pollAux_step s i prev n (hcont i (le_refl i) hlt)]
        exact ih (i + 1) (s i) k (by omega) hlt hk
          (fun j hj1 hj2 => hcont j (by omega) hj2) hfin hzero

lemma pollAux_timeout (s : Nat → PollSt) :
    ∀ fuel i prev, i + fuel = 20 → 0 < fuel →
      (∀ j, i ≤ j → j < 20 → pollContinues (s j) (3 * j) = true) →
      pollAux s i prev fuel =
        PollResult.payload (s 19)
          (if 0 < (s 19).hotelsfound then PollHint.timeoutWithHotels
           else PollHint.timeoutNoHotels) := by
  intro fuel
  induction fuel with
  | zero => intro i prev _ h0 _; omega
  | succ n ih =>
      intro i prev h20 _ hcont
      rw [pollAux_step s i prev n (hcont i (le_refl i) (by omega))]
      cases Nat.eq_zero_or_pos n with
      | inl hn =>
          subst hn
          have hi : i = 19 := by omega
          subst hi
          rw [pollAux]
      | inr hn =>
          exact ih (i + 1) (s i) (by omega) hn
            (fun j hj1 hj2 => hcont j (by omega) hj2)

/-- C6 (amended): the status poll raises the no-results condition whenever
it observes a finished search with zero hotels or zero tours; but when all
20 polls stay below the return thresholds (a 60-second timeout) with zero
hotels found, it does **not** raise — it returns the last status payload
with the no-results timeout hint. -/
theorem pollStatus_zero_results (s : Nat → PollSt) :
    (∀ k, k < 20 → (∀ j, j < k → pollContinues (s j) (3 * j) = true) →
      (s k).state = SState.finished →
      ((s k).hotelsfound = 0 ∨ (s k).toursfound = 0) →
      pollStatus s =
        PollResult.noResultsRaised (s k).hotelsfound (s k).toursfound) ∧
    ((∀ j, j < 20 → pollContinues (s j) (3 * j) = true) →
      (s 19).hotelsfound = 0 →
      pollStatus s = PollResult.payload (s 19) PollHint.timeoutNoHotels) := by
  constructor
  · intro k hk hcont hfin hzero
    exact pollAux_finished_zero s 20 0 { state := SState.searching } k
      (by omega) (by omega) hk (fun j _ hj2 => hcont j hj2) hfin hzero
  · intro hcont hz
    rw [pollStatus, pollAux_timeout s 20 0 { state := SState.searching }
      (by omega) (by omega) (fun j _ hj2 => hcont j hj2)]
    simp [hz]

/-- Witness for C6 at concrete status streams: a first poll that reports a
finished search with zero tours raises; twenty below-threshold polls with
zero hotels end in the timeout payload. -/
theorem pollStatus_zero_results_witness :
    pollStatus (fun _ => { state := SState.finished, hotelsfound := 4,
                           toursfound := 0, progress := 100 }) =
      PollResult.noResultsRaised 4 0 ∧
    pollStatus (fun _ => { state := SState.searching, hotelsfound := 0,
                           toursfound := 0, progress := 50 }) =
      PollResult.payload
        { state := SState.searching, hotelsfound := 0, toursfound := 0,
          progress := 50 } PollHint.timeoutNoHotels :=
  ⟨(pollStatus_zero_results _).1 0 (by decide)
      (fun j hj => absurd hj (Nat.not_lt_zero j)) (by decide) (by decide),
   (pollStatus_zero_results _).2
      (fun j _ => by simp [pollContinues, earlyReadyCond]) (by decide)⟩

/-- C6 counterexample: on a search that never finishes and finds no hotels
the poll, as the claim states it, would have to raise the no-results
condition at the 60-second timeout — but the code returns a normal status
payload (with a hint) instead. -/
theorem pollStatus_timeout_zero_no_raise :
    pollStatus (fun _ => { state := SState.searching, hotelsfound := 0,
                           toursfound := 0, progress := 50 }) =
      PollResult.payload
        { state := SState.searching, hotelsfound := 0, toursfound := 0,
          progress := 50 } PollHint.timeoutNoHotels := by
  decide

/-! ## Positional tour-id resolution (C9) -/

/-- C9: with the tour index populated at positions 1..5, a detail request
whose tour id is a non-numeric placeholder containing the ordinal «трет»
(third) — and none of the earlier ordinal keywords — resolves to the tour
id cached at display position 3 and that id is used for the inventory call
instead of failing. -/
theorem tourid_third_resolves (a b c d e : String) (st : HState) (ph : String)
    (hmap : st.touridMap = [(1, a), (2, b), (3, c), (4, d), (5, e)])
    (hnum : isNumericId ph = false)
    (h3 : strHas ph "трет" = true)
    (hk1 : strHas ph "перв" = false) (hk2 : strHas ph "1" = false)
    (hk3 : strHas ph "втор" = false) (hk4 : strHas ph "2" = false) :
    (getTourDetailsStep st ph).1 = DetailOutcome.callApi c := by
  rw [getTourDetailsStep]
  simp only [hnum, Bool.false_eq_true, if_false]
  rw [resolveTouridFromText, hmap]
  simp [resolveOrdinal, ordinalMap, h3, hk1, hk2, hk3, hk4, List.lookup]

/-- Witness for C9 at the placeholder `tourid_третьего_варианта`. -/
theorem tourid_third_resolves_witness :
    (getTourDetailsStep
      { touridMap := [(1, "9001"), (2, "9002"), (3, "9003"), (4, "9004"),
                      (5, "9005")] }
      "tourid_третьего_варианта").1 = DetailOutcome.callApi "9003" :=
  tourid_third_resolves "9001" "9002" "9003" "9004" "9005" _ _
    rfl (by decide) (by decide) (by decide) (by decide) (by decide) (by decide)

/-! ## Part-of-month span correction (C5) -/

/-- C5 counterexample.  For «второй половине мая» the claim's canonical
interval is day 15 through the last day of the month (15–31 May), yet the
corrector rewrites exactly that interval to 15–28 May; and for «середине
мая» a proposed 11–19 May span — strictly narrower than the canonical
10–20 — is left unchanged because it lies inside the tolerance band. -/
theorem fixP4_canonical_counterexample :
    fixP4 (some (MPart.vtorPolovina, 5))
        (DVal.dmy 15 5 2026, DVal.dmy 31 5 2026) =
      (DVal.dmy 15 5 2026, DVal.dmy 28 5 2026) ∧
    fixP4 (some (MPart.seredina, 5))
        (DVal.dmy 11 5 2026, DVal.dmy 19 5 2026) =
      (DVal.dmy 11 5 2026, DVal.dmy 19 5 2026) := by
  constructor
  · decide
  · decide

/-- C5 (amended): when the user text carries a part-of-month phrase and the
proposed dates parse, the corrector rewrites the span **iff** it falls
outside the part's tolerance band, and the rewritten span is the code's
canonical interval: beginning = 1–4, middle = 10–20, end = 20–last day,
first half = 1–14, second half = 15–**28** (not the last day of the
month). -/
theorem fixP4_month_part (part : MPart) (m d0 m0 y0 d1 m1 y1 : Int)
    (hv0 : validDMY d0 m0 y0 = true) (hv1 : validDMY d1 m1 y1 = true) :
    (p4InBand (daysFromCivil y1 m1 d1 - daysFromCivil y0 m0 d0) part = false →
      fixP4 (some (part, m)) (DVal.dmy d0 m0 y0, DVal.dmy d1 m1 y1) =
        (DVal.dmy (p4StartDay part) m (p4Year m0 y0 m),
         DVal.dmy (p4EndDay (p4Year m0 y0 m) m part) m (p4Year m0 y0 m))) ∧
    (p4InBand (daysFromCivil y1 m1 d1 - daysFromCivil y0 m0 d0) part = true →
      fixP4 (some (part, m)) (DVal.dmy d0 m0 y0, DVal.dmy d1 m1 y1) =
        (DVal.dmy d0 m0 y0, DVal.dmy d1 m1 y1)) := by
  constructor
  · intro hband
    rw [fixP4]
    simp [dvalPresent, hv0, hv1, hband]
  · intro hband
    rw [fixP4]
    simp [dvalPresent, hv0, hv1, hband]

/-- Witness for C5 at «второй половине мая», 15–31 May 2026. -/
theorem fixP4_month_part_witness :
    validDMY 15 5 2026 = true ∧ validDMY 31 5 2026 = true ∧
    p4InBand (daysFromCivil 2026 5 31 - daysFromCivil 2026 5 15)
      MPart.vtorPolovina = false ∧
    fixP4 (some (MPart.vtorPolovina, 5))
        (DVal.dmy 15 5 2026, DVal.dmy 31 5 2026) =
      (DVal.dmy (p4StartDay MPart.vtorPolovina) 5 (p4Year 5 2026 5),
       DVal.dmy (p4EndDay (p4Year 5 2026 5) 5 MPart.vtorPolovina) 5
         (p4Year 5 2026 5)) :=
  ⟨by decide, by decide, by decide,
   (fixP4_month_part MPart.vtorPolovina 5 15 5 2026 31 5 2026
      (by decide) (by decide)).1 (by decide)⟩

/-! ## Stable-sort facts and the results step (C4) -/

lemma mem_insSorted {α κ : Type} [LinearOrder κ] (key : α → κ)
    (l : List α) (x z : α) :
    z ∈ insSorted key l x ↔ z = x ∨ z ∈ l := by
  induction l with
  | nil => simp [insSorted]
  | cons y ys ih =>
      rw [insSorted]
      split
      · simp
      · simp only [List.mem_cons, ih]
        tauto

lemma length_insSorted {α κ : Type} [LinearOrder κ] (key : α → κ)
    (l : List α) (x : α) :
    (insSorted key l x).length = l.length + 1 := by
  induction l with
  | nil => rfl
  | cons y ys ih =>
      rw [insSorted]
      split
      · simp
      · simp [ih]

lemma pairwise_insSorted {α κ : Type} [LinearOrder κ] (key : α → κ)
    (l : List α) (x : α)
    (hl : l.Pairwise (fun a b => key a ≤ key b)) :
    (insSorted key l x).Pairwise (fun a b => key a ≤ key b) := by
  induction l with
  | nil => simp [insSorted]
  | cons y ys ih =>
      rw [insSorted]
      rcases List.pairwise_cons.mp hl with ⟨hy, hys⟩
      split
      · refine List.pairwise_cons.mpr ⟨?_, hl⟩
        intro z hz
        rcases List.mem_cons.mp hz with rfl | hz
        · exact le_of_lt (by assumption)
        · exact (le_of_lt (by assumption)).trans (hy z hz)
      · refine List.pairwise_cons.mpr ⟨?_, ih hys⟩
        intro z hz
        rcases (mem_insSorted key ys x z).mp hz with rfl | hz
        · exact le_of_not_lt (by assumption)
        · exact hy z hz

lemma sortByKey_mem {α κ : Type} [LinearOrder κ] (key : α → κ) :
    ∀ (l acc : List α) (z : α),
      z ∈ l.foldl (insSorted key) acc → z ∈ acc ∨ z ∈ l := by
  intro l
  induction l with
  | nil => intro acc z h; exact Or.inl h
  | cons y ys ih =>
      intro acc z h
      rcases ih (insSorted key acc y) z h with h2 | h2
      · rcases (mem_insSorted key acc y z).mp h2 with rfl | h3
        · exact Or.inr (by simp)
        · exact Or.inl h3
      · exact Or.inr (by simp [h2])

lemma sortByKey_length {α κ : Type} [LinearOrder κ] (key : α → κ) :
    ∀ (l acc : List α),
      (l.foldl (insSorted key) acc).length = acc.length + l.length := by
  intro l
  induction l with
  | nil => intro acc; simp
  | cons y ys ih =>
      intro acc
      rw [List.foldl_cons, ih, length_insSorted, List.length_cons]
      omega

lemma sortByKey_pairwise {α κ : Type} [LinearOrder κ] (key : α → κ) :
    ∀ (l acc : List α), acc.Pairwise (fun a b => key a ≤ key b) →
      (l.foldl (insSorted key) acc).Pairwise (fun a b => key a ≤ key b) := by
  intro l
  induction l with
  | nil => intro acc h; exact h
  | cons y ys ih =>
      intro acc h
      exact ih (insSorted key acc y) (pairwise_insSorted key acc y h)

/-- C4 (amended): the results step returns exactly the first five hotels of
the sorted pool (all of them when fewer than five), caches precisely those
as pending result cards and as the positional tour index, and the order is:
by the pair (relevance score, price) when no budget was given **and** an
ideal departure date is cached from the search, and by price alone
otherwise — in particular also when no budget was given but no ideal date
is available. -/
theorem resultsStep_top5_ordering (idf : DVal) (nf nt : Option Int)
    (hasBudget : Bool) (city : String) (hotels : List HotelIn) :
    (resultsStep idf nf nt hasBudget city hotels).simplified.length
        = min 5 hotels.length ∧
    (resultsStep idf nf nt hasBudget city hotels).cards
        = (resultsStep idf nf nt hasBudget city hotels).simplified.map
            (fun e => mapHotelToCard e city) ∧
    (resultsStep idf nf nt hasBudget city hotels).touridMap
        = buildTouridMap (resultsStep idf nf nt hasBudget city hotels).simplified ∧
    ((hasBudget = true ∨ dvalPresent idf = false) →
      (resultsStep idf nf nt hasBudget city hotels).simplified.Pairwise
        (fun e1 e2 => entryPrice e1 ≤ entryPrice e2)) ∧
    (hasBudget = false → dvalPresent idf = true →
      (resultsStep idf nf nt hasBudget city hotels).simplified.Pairwise
        (fun e1 e2 =>
          toLex (relScore idf nf nt e1.best, entryPrice e1)
            ≤ toLex (relScore idf nf nt e2.best, entryPrice e2))) := by
  have hscore : ∀ q ∈ hotels.map (scoreHotel idf nf nt),
      q.1 = (relScore idf nf nt q.2.best, entryPrice q.2) := by
    intro q hq
    rcases List.mem_map.mp hq with ⟨h, _, rfl⟩
    rfl
  refine ⟨?_, ?_, ?_, ?_, ?_⟩
  · rw [resultsStep]
    split
    · rw [List.length_map, List.length_take, sortByKey]
      rw [sortByKey_length]
      simp
    · rw [List.length_map, List.length_take, sortByKey]
      rw [sortByKey_length]
      simp
  · rfl
  · rfl
  · intro hcase
    have hbranch : (!hasBudget && dvalPresent idf) = false := by
      rcases hcase with h | h <;> simp [h]
    rw [resultsStep]
    simp only [hbranch, Bool.false_eq_true, if_false]
    have hp : (sortByKey (fun q => q.1.2)
        (hotels.map (scoreHotel idf nf nt))).Pairwise
        (fun a b => a.1.2 ≤ b.1.2) :=
      sortByKey_pairwise _ _ [] (by simp)
    have hp5 := hp.sublist (List.take_sublist 5 _)
    rw [List.pairwise_map]
    refine hp5.imp_of_mem ?_
    intro q1 q2 hq1 hq2 hle
    have m1 : q1 ∈ hotels.map (scoreHotel idf nf nt) := by
      rcases sortByKey_mem _ _ [] q1
        ((List.take_sublist 5 _).subset hq1) with h | h
      · exact absurd h (by simp)
      · exact h
    have m2 : q2 ∈ hotels.map (scoreHotel idf nf nt) := by
      rcases sortByKey_mem _ _ [] q2
        ((List.take_sublist 5 _).subset hq2) with h | h
      · exact absurd h (by simp)
      · exact h
    have e1 := hscore q1 m1
    have e2 := hscore q2 m2
    have p1 : q1.1.2 = entryPrice q1.2 := by rw [e1]
    have p2 : q2.1.2 = entryPrice q2.2 := by rw [e2]
    rw [p1, p2] at hle
    exact hle
  · intro hb hidf
    have hbranch : (!hasBudget && dvalPresent idf) = true := by
      simp [hb, hidf]
    rw [resultsStep]
    simp only [hbranch, if_true]
    have hp : (sortByKey (fun q => toLex (q.1.1, q.1.2))
        (hotels.map (scoreHotel idf nf nt))).Pairwise
        (fun a b => toLex (a.1.1, a.1.2) ≤ toLex (b.1.1, b.1.2)) :=
      sortByKey_pairwise _ _ [] (by simp)
    have hp5 := hp.sublist (List.take_sublist 5 _)
    rw [List.pairwise_map]
    refine hp5.imp_of_mem ?_
    intro q1 q2 hq1 hq2 hle
    have m1 : q1 ∈ hotels.map (scoreHotel idf nf nt) := by
      rcases sortByKey_mem _ _ [] q1
        ((List.take_sublist 5 _).subset hq1) with h | h
      · exact absurd h (by simp)
      · exact h
    have m2 : q2 ∈ hotels.map (scoreHotel idf nf nt) := by
      rcases sortByKey_mem _ _ [] q2
        ((List.take_sublist 5 _).subset hq2) with h | h
      · exact absurd h (by simp)
      · exact h
    have e1 := hscore q1 m1
    have e2 := hscore q2 m2
    have p1 : (q1.1.1, q1.1.2) = (relScore idf nf nt q1.2.best, entryPrice q1.2) := by
      rw [← e1]
    have p2 : (q2.1.1, q2.1.2) = (relScore idf nf nt q2.2.best, entryPrice q2.2) := by
      rw [← e2]
    rw [p1, p2] at hle
    exact hle

/-- Witness for C4 (relevance branch) at two concrete hotels. -/
theorem resultsStep_top5_ordering_witness :
    (resultsStep (DVal.dmy 1 6 2026) (some 7) (some 10) false "Москва"
        [{ hotelcode := some 2, price := some 200,
           tours := [{ tourid := some "b", price := some 200,
                       flydate := DVal.dmy 1 6 2026, nights := some 10 }] },
         { hotelcode := some 1, price := some 100,
           tours := [{ tourid := some "a", price := some 100,
                       flydate := DVal.dmy 1 6 2026, nights := some 7 }] }]
      ).simplified.length = min 5 2 ∧
    (resultsStep (DVal.dmy 1 6 2026) (some 7) (some 10) false "Москва"
        [{ hotelcode := some 2, price := some 200,
           tours := [{ tourid := some "b", price := some 200,
                       flydate := DVal.dmy 1 6 2026, nights := some 10 }] },
         { hotelcode := some 1, price := some 100,
           tours := [{ tourid := some "a", price := some 100,
                       flydate := DVal.dmy 1 6 2026, nights := some 7 }] }]
      ).simplified.Pairwise
      (fun e1 e2 =>
        toLex (relScore (DVal.dmy 1 6 2026) (some 7) (some 10) e1.best,
               entryPrice e1)
          ≤ toLex (relScore (DVal.dmy 1 6 2026) (some 7) (some 10) e2.best,
                   entryPrice e2)) := by
  constructor
  · exact (resultsStep_top5_ordering (DVal.dmy 1 6 2026) (some 7) (some 10)
      false "Москва" _).1
  · exact (resultsStep_top5_ordering (DVal.dmy 1 6 2026) (some 7) (some 10)
      false "Москва" _).2.2.2.2 rfl (by decide)

/-- C4 counterexample: with **no budget** given but no ideal start date
cached, the code orders by price, not by the relevance score — the first
returned hotel (7 nights, cheaper) has a strictly larger (worse) relevance
score than the second (10 nights), contradicting the claim that no-budget
retrievals are relevance-ordered. -/
theorem resultsStep_no_budget_price_order :
    (resultsStep DVal.noneD (some 7) (some 10) false "Москва"
        [{ hotelcode := some 1, price := some 100,
           tours := [{ tourid := some "a", price := some 100,
                       flydate := DVal.dmy 1 6 2026, nights := some 7 }] },
         { hotelcode := some 2, price := some 200,
           tours := [{ tourid := some "b", price := some 200,
                       flydate := DVal.dmy 1 6 2026, nights := some 10 }] }]
      ).simplified.map (fun e => (entryPrice e, e.best))
      = [(100, some { tourid := some "a", price := some 100,
                      flydate := DVal.dmy 1 6 2026, nights := some 7 }),
         (200, some { tourid := some "b", price := some 200,
                      flydate := DVal.dmy 1 6 2026, nights := some 10 })] ∧
    relScore DVal.noneD (some 7) (some 10)
        (some { tourid := some "a", price := some 100,
                flydate := DVal.dmy 1 6 2026, nights := some 7 }) >
      relScore DVal.noneD (some 7) (some 10)
        (some { tourid := some "b", price := some 200,
                flydate := DVal.dmy 1 6 2026, nights := some 10 }) := by
  constructor
  · decide
  · simp only [relScore, nightsPenalty, safeIntD, dvalPresent, Option.getD]
    norm_num

/-! ## The cascade gate of `search_tours` (C1) -/

lemma resortStep_none (a : SearchArgs) : resortStep none a = (none, a, false) := by
  rw [resortStep]
  split
  · rfl
  · rfl

lemma cacheEmpty_default : cacheEmpty {} = true := by decide

lemma checkCascadeSlots_blocks (fl : CascadeFlags) (a : SearchArgs)
    (h : fl.hasDeparture = false) :
    (checkCascadeSlots fl a false).1 = false ∧
    (checkCascadeSlots fl a false).2.headD "" = "город вылета" := by
  rw [checkCascadeSlots]
  simp [h]

lemma cascadeAndSubmit_blocks (fl : TextFlags) (apiRid : Option String)
    (oc : ParamCache) (a : SearchArgs) (st2 : HState)
    (h : fl.cascade.hasDeparture = false) :
    cascadeAndSubmit fl apiRid oc false a st2 =
      (SearchOutcome.blocked "город вылета",
       { st2 with
          metricsCascade := st2.metricsCascade + 1
          cache := f5Save a oc }) := by
  rw [cascadeAndSubmit]
  rcases checkCascadeSlots_blocks fl.cascade a h with ⟨h1, h2⟩
  simp only [h1, Bool.not_false, if_true]
  rw [h2]

/-- C1 (amended): on a first call (empty parameter cache), when the user
text states none of the four required slots — in particular not the
departure city — and the arguments do not name multiple departure cities
and no resort mention triggers the auto-resolution block, dispatching
`search_tours` returns the blocking structured error naming exactly one
missing slot, the first in the priority order (the departure city), and the
search is never submitted to the Search Client; the call is **not**
state-free, however: the cascade-incomplete metrics counter is incremented
(and non-null arguments are pre-saved into the parameter cache). -/
theorem searchTours_cascade_gate (fl : TextFlags) (now : Now)
    (apiRid : Option String) (args : SearchArgs) (st : HState)
    (hdep : depIsArray args.departure = false)
    (hresort : fl.resort = none)
    (hcache : st.cache = {})
    (hslot1 : fl.cascade.hasDeparture = false)
    (hslot2 : fl.cascade.hasSpecificDate = false)
    (hslot3 : fl.cascade.hasBareMonth = false)
    (hslot4 : fl.cascade.hasNights = false)
    (hslot5 : fl.cascade.hasTravelers = false)
    (hslot6 : fl.cascade.hasStars = false)
    (hslot7 : fl.cascade.hasMeal = false)
    (hslot8 : fl.cascade.hasBrand = false)
    (hslot9 : fl.cascade.hasSkip = false) :
    (searchToursStep fl now apiRid args st).1 =
      SearchOutcome.blocked "город вылета" ∧
    (searchToursStep fl now apiRid args st).2.metricsCascade =
      st.metricsCascade + 1 := by
  rw [searchToursStep]
  rw [if_neg (by simp [hdep])]
  rw [hresort, hcache]
  simp only [resortStep_none, cacheEmpty_default, Bool.not_true]
  rw [cascadeAndSubmit_blocks _ _ _ _ _ hslot1]
  constructor
  · rfl
  · simp

/-- Witness for C1 at an empty history (all detector flags false) and empty
arguments. -/
theorem searchTours_cascade_gate_witness :
    (searchToursStep {} ⟨2026, 10, 12, false⟩ none {} {}).1 =
      SearchOutcome.blocked "город вылета" ∧
    (searchToursStep {} ⟨2026, 10, 12, false⟩ none {} {}).2.metricsCascade =
      ({} : HState).metricsCascade + 1 :=
  searchTours_cascade_gate {} ⟨2026, 10, 12, false⟩ none {} {}
    rfl rfl rfl rfl rfl rfl rfl rfl rfl rfl rfl rfl

/-- C1 counterexample: a blocked `search_tours` call **does** mutate handler
state — the cascade-incomplete metrics counter changes — and with a
multi-city departure array the dispatcher returns the departure-array
error, which names no missing slot, instead of the claimed missing-slot
error. -/
theorem searchTours_blocked_mutates_state :
    searchToursStep {} ⟨2026, 10, 12, false⟩ (some "1") {} {} =
      (SearchOutcome.blocked "город вылета", { metricsCascade := 1 }) ∧
    ({ metricsCascade := 1 } : HState) ≠ ({} : HState) ∧
    searchToursStep {} ⟨2026, 10, 12, false⟩ (some "1")
        { departure := DepVal.listV [1, 5] } {} =
      (SearchOutcome.depArrayError [1, 5], {}) := by
  refine ⟨by decide, by decide, by decide⟩

/-! ## Idempotence of the date correctors (C7) -/

lemma parseFull_noneD : parseFull DVal.noneD = none := rfl

lemma parseFull_dm (d m : Int) : parseFull (DVal.dm d m) = none := rfl

lemma parseFull_junk : parseFull DVal.junk = none := rfl

lemma parseFull_some_shape {v : DVal} {x : Int} (h : parseFull v = some x) :
    ∃ a b c, v = DVal.dmy a b c := by
  cases v with
  | dmy a b c => exact ⟨a, b, c, rfl⟩
  | noneD => simp [parseFull] at h
  | dm d m => simp [parseFull] at h
  | junk => simp [parseFull] at h

lemma parseFull_dmy_valid {d m y : Int} (h : validDMY d m y = true) :
    parseFull (DVal.dmy d m y) = some (daysFromCivil y m d) := by
  simp [parseFull, h]

lemma parseFull_dmy_invalid {d m y : Int} (h : validDMY d m y = false) :
    parseFull (DVal.dmy d m y) = none := by
  simp [parseFull, h]

lemma fixP2_dmy (now : Now) (d m y : Int) :
    fixP2 now (DVal.dmy d m y) = DVal.dmy d m y := rfl

lemma fixP2_idem (now : Now) (v : DVal) :
    fixP2 now (fixP2 now v) = fixP2 now v := by
  cases v with
  | noneD => rfl
  | junk => rfl
  | dmy d m y => rfl
  | dm d m =>
      by_cases h : validDMY d m now.y = true
      · rw [fixP2, if_pos h]
        split
        · rfl
        · rfl
      · rw [fixP2, if_neg h, fixP2, if_neg h]

lemma p2fix_of_mem (now : Now) {v w : DVal}
    (h : v = w ∨ ∃ a b c, v = DVal.dmy a b c) (hw : fixP2 now w = w) :
    fixP2 now v = v := by
  rcases h with rfl | ⟨a, b, c, rfl⟩
  · exact hw
  · rfl

lemma fix1B_parse_none (er : Bool) (nf nt : Option Int) (df dto : DVal)
    (h : parseFull df = none) : fix1B er nf nt (df, dto) = (df, dto) := by
  rw [fix1B]
  simp [h]

lemma fix1B_missing (er : Bool) (nf nt : Option Int) (df : DVal) (dD : Int)
    (h : parseFull df = some dD) :
    fix1B er nf nt (df, DVal.noneD) = (df, df) := by
  rw [fix1B]
  simp [h]

lemma fix1B_snd_bad (er : Bool) (nf nt : Option Int) (df dto : DVal) (dD : Int)
    (h : parseFull df = some dD) (h2 : dto ≠ DVal.noneD)
    (h3 : parseFull dto = none) : fix1B er nf nt (df, dto) = (df, dto) := by
  rw [fix1B]
  simp only [h]
  cases dto with
  | noneD => exact absurd rfl h2
  | dm d m => simp [h3]
  | junk => simp [h3]
  | dmy a b c => simp [h3]

lemma fix1B_go (er : Bool) (nf nt : Option Int) (df dto : DVal) (dD tD : Int)
    (h : parseFull df = some dD) (h2 : parseFull dto = some tD) :
    fix1B er nf nt (df, dto) =
      (if clamp1B er nf nt (tD - dD) then (df, df) else (df, dto)) := by
  rw [fix1B]
  simp only [h]
  cases dto with
  | noneD => simp [parseFull] at h2
  | dm d m => simp [parseFull] at h2
  | junk => simp [parseFull] at h2
  | dmy a b c => simp [h2]

lemma clamp1B_zero (er : Bool) (nf nt : Option Int) :
    clamp1B er nf nt 0 = false := by
  rw [clamp1B]
  split
  · rfl
  · split
    · simp
    · simp

lemma fix1B_idem (er : Bool) (nf nt : Option Int) (p : DVal × DVal) :
    fix1B er nf nt (fix1B er nf nt p) = fix1B er nf nt p := by
  obtain ⟨df, dto⟩ := p
  cases hdf : parseFull df with
  | none =>
      rw [fix1B_parse_none er nf nt df dto hdf,
          fix1B_parse_none er nf nt df dto hdf]
  | some dD =>
      cases hto : parseFull dto with
      | none =>
          cases dto with
          | noneD =>
              rw [fix1B_missing er nf nt df dD hdf]
              rw [fix1B_go er nf nt df df dD dD hdf hdf]
              simp [clamp1B_zero]
          | dm d m =>
              rw [fix1B_snd_bad er nf nt df (DVal.dm d m) dD hdf (by simp) hto,
                  fix1B_snd_bad er nf nt df (DVal.dm d m) dD hdf (by simp) hto]
          | junk =>
              rw [fix1B_snd_bad er nf nt df DVal.junk dD hdf (by simp) hto,
                  fix1B_snd_bad er nf nt df DVal.junk dD hdf (by simp) hto]
          | dmy a b c =>
              rw [fix1B_snd_bad er nf nt df (DVal.dmy a b c) dD hdf (by simp) hto,
                  fix1B_snd_bad er nf nt df (DVal.dmy a b c) dD hdf (by simp) hto]
      | some tD =>
          rw [fix1B_go er nf nt df dto dD tD hdf hto]
          by_cases hcl : clamp1B er nf nt (tD - dD) = true
          · rw [if_pos hcl]
            rw [fix1B_go er nf nt df df dD dD hdf hdf]
            simp [clamp1B_zero, hcl]
          · rw [if_neg hcl]
            rw [fix1B_go er nf nt df dto dD tD hdf hto, if_neg hcl]

lemma fix1B_fst (er : Bool) (nf nt : Option Int) (p : DVal × DVal) :
    (fix1B er nf nt p).1 = p.1 := by
  obtain ⟨df, dto⟩ := p
  cases hdf : parseFull df with
  | none => rw [fix1B_parse_none er nf nt df dto hdf]
  | some dD =>
      cases hto : parseFull dto with
      | none =>
          cases dto with
          | noneD => rw [fix1B_missing er nf nt df dD hdf]
          | dm d m => rw [fix1B_snd_bad er nf nt df _ dD hdf (by simp) hto]
          | junk => rw [fix1B_snd_bad er nf nt df _ dD hdf (by simp) hto]
          | dmy a b c => rw [fix1B_snd_bad er nf nt df _ dD hdf (by simp) hto]
      | some tD =>
          rw [fix1B_go er nf nt df dto dD tD hdf hto]
          split
          · rfl
          · rfl

lemma fix1B_snd_mem (er : Bool) (nf nt : Option Int) (p : DVal × DVal) :
    (fix1B er nf nt p).2 = p.2 ∨ (fix1B er nf nt p).2 = p.1 := by
  obtain ⟨df, dto⟩ := p
  cases hdf : parseFull df with
  | none => rw [fix1B_parse_none er nf nt df dto hdf]; exact Or.inl rfl
  | some dD =>
      cases hto : parseFull dto with
      | none =>
          cases dto with
          | noneD =>
              rw [fix1B_missing er nf nt df dD hdf]
              exact Or.inr rfl
          | dm d m =>
              rw [fix1B_snd_bad er nf nt df _ dD hdf (by simp) hto]
              exact Or.inl rfl
          | junk =>
              rw [fix1B_snd_bad er nf nt df _ dD hdf (by simp) hto]
              exact Or.inl rfl
          | dmy a b c =>
              rw [fix1B_snd_bad er nf nt df _ dD hdf (by simp) hto]
              exact Or.inl rfl
      | some tD =>
          rw [fix1B_go er nf nt df dto dD tD hdf hto]
          split
          · exact Or.inr rfl
          · exact Or.inl rfl

lemma fixP6_fst_mem (now : Now) (p : DVal × DVal) :
    (fixP6 now p).1 = p.1 ∨ ∃ a b c, (fixP6 now p).1 = DVal.dmy a b c := by
  rw [fixP6]
  split
  · split
    · split
      · exact Or.inr ⟨_, _, _, rfl⟩
      · exact Or.inr ⟨_, _, _, rfl⟩
    · exact Or.inl rfl
  · exact Or.inl rfl

lemma fixP6_snd_mem (now : Now) (p : DVal × DVal) :
    (fixP6 now p).2 = p.2 ∨ ∃ a b c, (fixP6 now p).2 = DVal.dmy a b c := by
  rw [fixP6]
  split
  · split
    · split
      · exact Or.inr ⟨_, _, _, rfl⟩
      · exact Or.inl rfl
    · exact Or.inl rfl
  · exact Or.inl rfl

lemma fixP4_fst_mem (mp : Option (MPart × Int)) (p : DVal × DVal) :
    (fixP4 mp p).1 = p.1 ∨ ∃ a b c, (fixP4 mp p).1 = DVal.dmy a b c := by
  rw [fixP4.eq_def]
  split
  · exact Or.inl rfl
  · split
    · exact Or.inl rfl
    · split
      · split
        · split
          · exact Or.inl rfl
          · exact Or.inr ⟨_, _, _, rfl⟩
        · exact Or.inl rfl
      · exact Or.inl rfl

lemma fixP4_snd_mem (mp : Option (MPart × Int)) (p : DVal × DVal) :
    (fixP4 mp p).2 = p.2 ∨ ∃ a b c, (fixP4 mp p).2 = DVal.dmy a b c := by
  rw [fixP4.eq_def]
  split
  · exact Or.inl rfl
  · split
    · exact Or.inl rfl
    · split
      · split
        · split
          · exact Or.inl rfl
          · exact Or.inr ⟨_, _, _, rfl⟩
        · exact Or.inl rfl
      · exact Or.inl rfl

/-- Both components of the corrected arguments are Fix P2 fixed points:
the chain only ever keeps a P2-completed value or writes a full date. -/
lemma dateChain_p2fixed (now : Now) (er : Bool) (nf nt : Option Int)
    (mp : Option (MPart × Int)) (p : DVal × DVal) :
    fixP2both now (dateChain now er nf nt mp p) =
      dateChain now er nf nt mp p := by
  rw [dateChain]
  have hy1 : fixP2 now (fixP2both now p).1 = (fixP2both now p).1 :=
    fixP2_idem now p.1
  have hy2 : fixP2 now (fixP2both now p).2 = (fixP2both now p).2 :=
    fixP2_idem now p.2
  have hz1 : fixP2 now (fix1B er nf nt (fixP2both now p)).1 =
      (fix1B er nf nt (fixP2both now p)).1 := by
    rw [fix1B_fst]
    exact hy1
  have hz2 : fixP2 now (fix1B er nf nt (fixP2both now p)).2 =
      (fix1B er nf nt (fixP2both now p)).2 := by
    rcases fix1B_snd_mem er nf nt (fixP2both now p) with h | h <;> rw [h]
    · exact hy2
    · exact hy1
  have hw1 : fixP2 now (fixP6 now (fix1B er nf nt (fixP2both now p))).1 =
      (fixP6 now (fix1B er nf nt (fixP2both now p))).1 :=
    p2fix_of_mem now (fixP6_fst_mem now _) hz1
  have hw2 : fixP2 now (fixP6 now (fix1B er nf nt (fixP2both now p))).2 =
      (fixP6 now (fix1B er nf nt (fixP2both now p))).2 :=
    p2fix_of_mem now (fixP6_snd_mem now _) hz2
  have hc1 := p2fix_of_mem now
    (fixP4_fst_mem mp (fixP6 now (fix1B er nf nt (fixP2both now p)))) hw1
  have hc2 := p2fix_of_mem now
    (fixP4_snd_mem mp (fixP6 now (fix1B er nf nt (fixP2both now p)))) hw2
  rw [fixP2both]
  exact Prod.ext hc1 hc2

lemma fixP4_none (p : DVal × DVal) : fixP4 none p = p := by
  rw [fixP4]
  split
  · rfl
  · rfl

lemma fixP4_dmy (part : MPart) (m d0 m0 y0 d1 m1 y1 : Int) :
    fixP4 (some (part, m)) (DVal.dmy d0 m0 y0, DVal.dmy d1 m1 y1) =
      (if validDMY d0 m0 y0 && validDMY d1 m1 y1 then
        (if p4InBand (daysFromCivil y1 m1 d1 - daysFromCivil y0 m0 d0) part then
          (DVal.dmy d0 m0 y0, DVal.dmy d1 m1 y1)
        else
          (DVal.dmy (p4StartDay part) m (p4Year m0 y0 m),
           DVal.dmy (p4EndDay (p4Year m0 y0 m) m part) m (p4Year m0 y0 m)))
      else (DVal.dmy d0 m0 y0, DVal.dmy d1 m1 y1)) := by
  rw [fixP4]
  simp [dvalPresent]

lemma daysFromCivil_sub_same (y m d1 d2 : Int) :
    daysFromCivil y m d2 - daysFromCivil y m d1 = d2 - d1 := by
  simp only [daysFromCivil]
  ring

lemma monthLen_bounds (y m : Int) :
    28 ≤ monthLen y m ∧ monthLen y m ≤ 31 := by
  rw [monthLen]
  split
  · split
    · omega
    · omega
  · split
    · omega
    · omega

lemma p4InBand_zero (part : MPart) : p4InBand 0 part = false := by
  cases part <;> decide

lemma p4Year_self (y m : Int) : p4Year m y m = y := by
  simp [p4Year]

lemma p4InBand_canonical (part : MPart) (yr m : Int) :
    p4InBand (daysFromCivil yr m (p4EndDay yr m part) -
      daysFromCivil yr m (p4StartDay part)) part = true := by
  rw [daysFromCivil_sub_same]
  cases part with
  | nachalo => norm_num [p4EndDay, p4StartDay, p4InBand]
  | seredina => norm_num [p4EndDay, p4StartDay, p4InBand]
  | konets =>
      have hb := monthLen_bounds yr m
      simp only [p4EndDay, p4StartDay, p4InBand]
      rw [Bool.and_eq_true]
      constructor
      · simp only [decide_eq_true_eq]
        omega
      · simp only [decide_eq_true_eq]
        omega
  | pervPolovina => norm_num [p4EndDay, p4StartDay, p4InBand]
  | vtorPolovina => norm_num [p4EndDay, p4StartDay, p4InBand]

lemma fixP4_not_dmy_fst (part : MPart) (m : Int) (z1 z2 : DVal)
    (h : ∀ a b c, z1 ≠ DVal.dmy a b c) :
    fixP4 (some (part, m)) (z1, z2) = (z1, z2) := by
  cases z1 with
  | dmy a b c => exact absurd rfl (h a b c)
  | noneD => simp [fixP4.eq_def, dvalPresent]
  | dm a b => cases z2 <;> simp [fixP4.eq_def, dvalPresent]
  | junk => cases z2 <;> simp [fixP4.eq_def, dvalPresent]

lemma fixP4_not_dmy_snd (part : MPart) (m : Int) (z1 z2 : DVal)
    (h : ∀ a b c, z2 ≠ DVal.dmy a b c) :
    fixP4 (some (part, m)) (z1, z2) = (z1, z2) := by
  cases z2 with
  | dmy a b c => exact absurd rfl (h a b c)
  | noneD => simp [fixP4.eq_def, dvalPresent]
  | dm a b => cases z1 <;> simp [fixP4.eq_def, dvalPresent]
  | junk => cases z1 <;> simp [fixP4.eq_def, dvalPresent]

/-- Re-running Fix 1B and Fix P4 on already P4-corrected arguments changes
nothing: a pass-2 clamp (if any) is undone by the rerun of Fix P4, whose
target is determined by the (unchanged) start date. -/
lemma fixP4_fix1B_stable (er : Bool) (nf nt : Option Int)
    (mp : Option (MPart × Int)) (z : DVal × DVal)
    (hidem : fix1B er nf nt z = z) :
    fixP4 mp (fix1B er nf nt (fixP4 mp z)) = fixP4 mp z := by
  rcases mp with _ | ⟨part, m⟩
  · rw [fixP4_none, fixP4_none, hidem]
  · obtain ⟨z1, z2⟩ := z
    by_cases hsh1 : ∃ a b c, z1 = DVal.dmy a b c
    case neg =>
      push_neg at hsh1
      have hid := fixP4_not_dmy_fst part m z1 z2 hsh1
      rw [hid, hidem, hid]
    case pos =>
    by_cases hsh2 : ∃ a b c, z2 = DVal.dmy a b c
    case neg =>
      push_neg at hsh2
      have hid := fixP4_not_dmy_snd part m z1 z2 hsh2
      rw [hid, hidem, hid]
    case pos =>
    obtain ⟨d0, m0, y0, rfl⟩ := hsh1
    obtain ⟨d1, m1, y1, rfl⟩ := hsh2
    by_cases hval : (validDMY d0 m0 y0 && validDMY d1 m1 y1) = true
    · by_cases hband :
        p4InBand (daysFromCivil y1 m1 d1 - daysFromCivil y0 m0 d0) part = true
      · have hz : fixP4 (some (part, m))
            (DVal.dmy d0 m0 y0, DVal.dmy d1 m1 y1) =
            (DVal.dmy d0 m0 y0, DVal.dmy d1 m1 y1) := by
          rw [fixP4_dmy, if_pos hval, if_pos hband]
        rw [hz, hidem, hz]
      · have hc : fixP4 (some (part, m))
            (DVal.dmy d0 m0 y0, DVal.dmy d1 m1 y1) =
            (DVal.dmy (p4StartDay part) m (p4Year m0 y0 m),
             DVal.dmy (p4EndDay (p4Year m0 y0 m) m part) m (p4Year m0 y0 m)) := by
          rw [fixP4_dmy, if_pos hval, if_neg hband]
        rw [hc]
        by_cases hv1 : validDMY (p4StartDay part) m (p4Year m0 y0 m) = true
        · by_cases hv2 :
            validDMY (p4EndDay (p4Year m0 y0 m) m part) m (p4Year m0 y0 m) = true
          · have hps := parseFull_dmy_valid hv1
            have hpe := parseFull_dmy_valid hv2
            rw [fix1B_go er nf nt _ _ _ _ hps hpe]
            by_cases hcl : clamp1B er nf nt
                (daysFromCivil (p4Year m0 y0 m) m (p4EndDay (p4Year m0 y0 m) m part)
                  - daysFromCivil (p4Year m0 y0 m) m (p4StartDay part)) = true
            · rw [if_pos hcl]
              rw [fixP4_dmy, if_pos (by simp [hv1]), sub_self,
                  if_neg (by simp [p4InBand_zero]), p4Year_self]
            · rw [if_neg hcl]
              rw [fixP4_dmy, if_pos (by simp [hv1, hv2]),
                  if_pos (p4InBand_canonical part (p4Year m0 y0 m) m)]
          · have hpe := parseFull_dmy_invalid (by simpa using hv2)
            rw [fix1B_snd_bad er nf nt _ _ _ (parseFull_dmy_valid hv1)
              (by simp) hpe]
            rw [fixP4_dmy, if_neg (by simp [hv2])]
        · have hps := parseFull_dmy_invalid (by simpa using hv1)
          rw [fix1B_parse_none er nf nt _ _ hps]
          rw [fixP4_dmy, if_neg (by simp [hv1])]
    · have hz : fixP4 (some (part, m))
          (DVal.dmy d0 m0 y0, DVal.dmy d1 m1 y1) =
          (DVal.dmy d0 m0 y0, DVal.dmy d1 m1 y1) := by
        rw [fixP4_dmy, if_neg hval]
      rw [hz, hidem, hz]

/-- C7 (amended): applying the date-corrector chain (year completion,
end-date defaulting and clamping, past-date shifting, part-of-month span
correction) a second time — with the same conversation history and current
date — produces no further changes, **provided** the past-date shifter
(Fix P6) fires in neither application; without that proviso the chain is
not idempotent. -/
theorem dateChain_idempotent (now : Now) (er : Bool) (nf nt : Option Int)
    (mp : Option (MPart × Int)) (p : DVal × DVal)
    (h1 : fixP6 now (fix1B er nf nt (fixP2both now p)) =
      fix1B er nf nt (fixP2both now p))
    (h2 : fixP6 now (fix1B er nf nt
        (fixP2both now (dateChain now er nf nt mp p))) =
      fix1B er nf nt (fixP2both now (dateChain now er nf nt mp p))) :
    dateChain now er nf nt mp (dateChain now er nf nt mp p) =
      dateChain now er nf nt mp p := by
  have hfix := dateChain_p2fixed now er nf nt mp p
  have hchain : dateChain now er nf nt mp p =
      fixP4 mp (fix1B er nf nt (fixP2both now p)) := by
    rw [dateChain, h1]
  rw [hfix] at h2
  calc dateChain now er nf nt mp (dateChain now er nf nt mp p)
      = fixP4 mp (fixP6 now (fix1B er nf nt
          (fixP2both now (dateChain now er nf nt mp p)))) := by rw [dateChain]
    _ = fixP4 mp (fixP6 now (fix1B er nf nt (dateChain now er nf nt mp p))) := by
          rw [hfix]
    _ = fixP4 mp (fix1B er nf nt (dateChain now er nf nt mp p)) := by rw [h2]
    _ = fixP4 mp (fix1B er nf nt
          (fixP4 mp (fix1B er nf nt (fixP2both now p)))) := by rw [hchain]
    _ = fixP4 mp (fix1B er nf nt (fixP2both now p)) :=
          fixP4_fix1B_stable er nf nt mp _ (fix1B_idem er nf nt _)
    _ = dateChain now er nf nt mp p := hchain.symm

/-- Witness for C7: «в середине ноября», proposed dates 20.11.2026 (exact
day), current date 12.10.2026 — the chain corrects to 10–20.11.2026 and a
second application changes nothing. -/
theorem dateChain_idempotent_witness :
    fixP6 ⟨2026, 10, 12, false⟩ (fix1B false none none
        (fixP2both ⟨2026, 10, 12, false⟩ (DVal.dmy 20 11 2026, DVal.dmy 20 11 2026))) =
      fix1B false none none
        (fixP2both ⟨2026, 10, 12, false⟩ (DVal.dmy 20 11 2026, DVal.dmy 20 11 2026)) ∧
    dateChain ⟨2026, 10, 12, false⟩ false none none (some (MPart.seredina, 11))
        (DVal.dmy 20 11 2026, DVal.dmy 20 11 2026) =
      (DVal.dmy 10 11 2026, DVal.dmy 20 11 2026) ∧
    dateChain ⟨2026, 10, 12, false⟩ false none none (some (MPart.seredina, 11))
        (dateChain ⟨2026, 10, 12, false⟩ false none none (some (MPart.seredina, 11))
          (DVal.dmy 20 11 2026, DVal.dmy 20 11 2026)) =
      dateChain ⟨2026, 10, 12, false⟩ false none none (some (MPart.seredina, 11))
        (DVal.dmy 20 11 2026, DVal.dmy 20 11 2026) :=
  ⟨by decide, by decide,
   dateChain_idempotent ⟨2026, 10, 12, false⟩ false none none
     (some (MPart.seredina, 11)) (DVal.dmy 20 11 2026, DVal.dmy 20 11 2026)
     (by decide) (by decide)⟩

/-- C7 counterexample: «в конце декабря» on 31 December 2026 with proposed
dates 31.12.2026–31.12.2026.  The first application corrects to
20.12–31.12.2026 (now partially in the past); the second application first
shifts the past start date to 01.01.2027 and then re-corrects to
20.12–31.12.**2027** — a different result, so the chain is not
idempotent. -/
theorem dateChain_not_idempotent :
    dateChain ⟨2026, 12, 31, false⟩ false none none (some (MPart.konets, 12))
        (dateChain ⟨2026, 12, 31, false⟩ false none none (some (MPart.konets, 12))
          (DVal.dmy 31 12 2026, DVal.dmy 31 12 2026)) ≠
      dateChain ⟨2026, 12, 31, false⟩ false none none (some (MPart.konets, 12))
        (DVal.dmy 31 12 2026, DVal.dmy 31 12 2026) := by
  decide

end MGP
